import Mathlib

/-! # Echoes of Memory: front-end logic

A shallow embedding of the data-to-drawing and request/response logic of the
React front end (`src/frontend/src`), with the properties its specification
states about it.

Conventions of the embedding.

* A JavaScript number is a binary64 value (`JsNumber`): a finite rational of
  53 significant bits, an infinity or NaN, the two zeros being identified.
  Every operation on numbers rounds its exact result to the nearest such
  value, a tie going to the even one (`roundBinary64`), and a number read from
  JSON is rounded in the same way.  The vertical position of a chart point
  and the size of a topic are computed in this arithmetic.
* The horizontal position of a chart point is computed in exact rational
  arithmetic; its division goes through `jsDiv`, whose result is `none` when
  the divisor is zero (JavaScript yields `NaN` for `0 / 0`).  In the
  coordinates of a point `none` stands for a value that is not a finite
  number.
* A JavaScript string is the list of its UTF-16 code units (`JsString`) where
  the source cuts it (`substring`); text typed by the user is a `String`.
* The conversion of a number to text inside a template literal is a built-in
  of the runtime; it is the parameter `fmt` of the path builders.
* React state is passed explicitly; effects on the outside (requests, alerts,
  downloads) are collected in a log, in the order in which they happen.
-/

namespace EchoesOfMemory

/-! ## JavaScript numbers -/

/-- Round to the nearest integer, a tie going to the even one. -/
def roundHalfEven (t : ℚ) : ℤ :=
  if t - ⌊t⌋ < 1 / 2 then ⌊t⌋
  else if 1 / 2 < t - ⌊t⌋ then ⌊t⌋ + 1
  else if ⌊t⌋ % 2 = 0 then ⌊t⌋ else ⌊t⌋ + 1

/-- The exponent of the binade of `x` in binary64; below `2 ^ (-1022)` the
subnormal numbers keep the exponent -1022. -/
def binadeExponent (x : ℚ) : ℤ :=
  if x = 0 then -1022 else max (Int.log 2 |x|) (-1022)

/-- Rounding to the nearest number of 53 significant bits. -/
def roundBinary64 (x : ℚ) : ℚ :=
  roundHalfEven (x / 2 ^ (binadeExponent x - 52)) * 2 ^ (binadeExponent x - 52)

/-- `Number.MAX_VALUE`. -/
def maxDouble : ℚ := (2 ^ 53 - 1) * 2 ^ 971

/-- A JavaScript number. -/
inductive JsNumber where
  | nan
  | negInf
  | finite (value : ℚ)
  | posInf
deriving DecidableEq, Repr

namespace JsNumber

/-- The number denoted by a decimal literal or a JSON number of exact value `x`,
and the result of an operation of exact value `x`. -/
def ofRat (x : ℚ) : JsNumber :=
  if maxDouble < roundBinary64 x then posInf
  else if roundBinary64 x < -maxDouble then negInf
  else finite (roundBinary64 x)


/-- The finite value, if there is one. -/
def toFinite : JsNumber → Option ℚ
  | finite value => some value
  | _ => none

/-- Unary minus. -/
def neg : JsNumber → JsNumber
  | nan => nan
  | negInf => posInf
  | finite a => finite (-a)
  | posInf => negInf

/-- JavaScript `a + b` on numbers. -/
def add : JsNumber → JsNumber → JsNumber
  | nan, _ => nan
  | _, nan => nan
  | posInf, negInf => nan
  | negInf, posInf => nan
  | posInf, _ => posInf
  | _, posInf => posInf
  | negInf, _ => negInf
  | _, negInf => negInf
  | finite a, finite b => ofRat (a + b)

/-- JavaScript `a - b` on numbers. -/
def sub (a b : JsNumber) : JsNumber :=
  add a (neg b)

/-- JavaScript `a * b` on numbers. -/
def mul : JsNumber → JsNumber → JsNumber
  | nan, _ => nan
  | _, nan => nan
  | finite a, finite b => ofRat (a * b)
  | finite a, posInf => if a = 0 then nan else if 0 < a then posInf else negInf
  | finite a, negInf => if a = 0 then nan else if 0 < a then negInf else posInf
  | posInf, finite b => if b = 0 then nan else if 0 < b then posInf else negInf
  | negInf, finite b => if b = 0 then nan else if 0 < b then negInf else posInf
  | posInf, posInf => posInf
  | negInf, negInf => posInf
  | posInf, negInf => negInf
  | negInf, posInf => negInf

/-- JavaScript `a / b` on numbers, a zero divisor being `+0`. -/
def div : JsNumber → JsNumber → JsNumber
  | nan, _ => nan
  | _, nan => nan
  | finite a, finite b =>
    if b = 0 then (if a = 0 then nan else if 0 < a then posInf else negInf)
    else ofRat (a / b)
  | finite _, posInf => finite 0
  | finite _, negInf => finite 0
  | posInf, finite b => if 0 ≤ b then posInf else negInf
  | negInf, finite b => if 0 ≤ b then negInf else posInf
  | posInf, posInf => nan
  | posInf, negInf => nan
  | negInf, posInf => nan
  | negInf, negInf => nan

/-- JavaScript `a <= b` on numbers. -/
def le : JsNumber → JsNumber → Prop
  | nan, _ => False
  | _, nan => False
  | negInf, _ => True
  | _, posInf => True
  | finite a, finite b => a ≤ b
  | posInf, _ => False
  | finite _, negInf => False

instance instLEJsNumber : LE JsNumber := ⟨le⟩

instance decidableLe (a b : JsNumber) : Decidable (a ≤ b) := by
  show Decidable (le a b)
  cases a <;> cases b <;> unfold le <;> infer_instance

end JsNumber

/-! ## `components/EmotionChart.jsx` -/

/-- One entry of `emotion_timeline`; `sentiment_score` is the exact value of the
JSON number. -/
structure EmotionSample where
  date : String
  sentiment_score : ℚ
  dominant_emotion : String
deriving DecidableEq, Repr

/-- JavaScript `a / b` on finite numbers, undefined (`none`) for a zero divisor. -/
def jsDiv (a b : ℚ) : Option ℚ :=
  if b = 0 then none else some (a / b)

/-- `const maxScore = 1`. -/
def maxScore : ℚ := 1

/-- `const minScore = -1`. -/
def minScore : ℚ := -1

/-- `const range = maxScore - minScore`. -/
def range : ℚ := maxScore - minScore

/-- `const x = (index / (emotionTimeline.length - 1)) * 100`, with `len` the
length of the timeline. -/
def pointX (len index : Nat) : Option ℚ :=
  (jsDiv (index : ℚ) ((len : ℚ) - 1)).map (fun q => q * 100)

/-- `const normalizedScore = ((item.sentiment_score - minScore) / range) * 100`. -/
def normalizedScore (item : EmotionSample) : JsNumber :=
  JsNumber.mul
    (JsNumber.div (JsNumber.sub (JsNumber.ofRat item.sentiment_score) (JsNumber.ofRat minScore))
      (JsNumber.ofRat range))
    (JsNumber.ofRat 100)

/-- `const y = 100 - normalizedScore`; `none` when the result is not a finite
number. -/
def pointY (item : EmotionSample) : Option ℚ :=
  (JsNumber.sub (JsNumber.ofRat 100) (normalizedScore item)).toFinite

/-- The template literal `${x},${y}` of one point. -/
def pointText (fmt : Option ℚ → String) (len index : Nat) (item : EmotionSample) : String :=
  fmt (pointX len index) ++ "," ++ fmt (pointY item)

/-- The array `points` built by `emotionTimeline.map((item, index) => ...)`. -/
def pathPoints (fmt : Option ℚ → String) (emotionTimeline : List EmotionSample) : List String :=
  emotionTimeline.mapIdx (fun index item => pointText fmt emotionTimeline.length index item)

/-- `generatePath`: the stroke of the chart. -/
def generatePath (fmt : Option ℚ → String) (emotionTimeline : List EmotionSample) : String :=
  "M " ++ " L ".intercalate (pathPoints fmt emotionTimeline)

/-- `generateAreaPath`: the filled area of the chart. -/
def generateAreaPath (fmt : Option ℚ → String) (emotionTimeline : List EmotionSample) : String :=
  "M 0,100 L " ++ " L ".intercalate (pathPoints fmt emotionTimeline) ++ " L 100,100 Z"

/-- `getEmotionColor`. -/
def getEmotionColor (emotion : String) : String :=
  if emotion = "positive" then "#4caf50"
  else if emotion = "negative" then "#ff9800"
  else "#9e9e9e"

/-- One `<circle>` of the chart. -/
structure Marker where
  key : Nat
  cx : Option ℚ
  cy : Option ℚ
  fill : String
deriving DecidableEq, Repr

/-- The data points: `emotionTimeline.map((item, index) => <circle .../>)`. -/
def pointMarkers (emotionTimeline : List EmotionSample) : List Marker :=
  emotionTimeline.mapIdx (fun index item =>
    { key := index
      cx := pointX emotionTimeline.length index
      cy := pointY item
      fill := getEmotionColor item.dominant_emotion })

/-- What `EmotionChart` renders: the placeholder, or the chart. -/
inductive ChartView where
  | empty
  | chart (areaPath linePath : String) (points : List Marker)
      (firstDate lastDate : Option String)
deriving DecidableEq, Repr

/-- The component `EmotionChart`; a missing (`null`/`undefined`) timeline is `none`. -/
def EmotionChart (fmt : Option ℚ → String) (emotionTimeline : Option (List EmotionSample)) :
    ChartView :=
  match emotionTimeline with
  | none => ChartView.empty
  | some tl =>
    if tl.length = 0 then ChartView.empty
    else ChartView.chart (generateAreaPath fmt tl) (generatePath fmt tl) (pointMarkers tl)
      (tl[0]?.map (fun item => item.date)) (tl[tl.length - 1]?.map (fun item => item.date))

/-- A timeline of three samples, two of them equal. -/
def sampleTimeline : List EmotionSample :=
  [{ date := "2024-01-01", sentiment_score := 0, dominant_emotion := "neutral" },
   { date := "2024-01-01", sentiment_score := 0, dominant_emotion := "neutral" },
   { date := "2024-01-03", sentiment_score := 1, dominant_emotion := "positive" }]

/-- A stand-in for the number-to-text conversion, on the values it is used at. -/
def sampleFmt (q : Option ℚ) : String :=
  match q with
  | none => "NaN"
  | some v => toString v

/-! ## `components/ReviewSelector.jsx` -/

/-- `canGenerate`: whether the selected period may be generated, given the
current year and the current (0-based) month read from the clock. -/
def canGenerate (selectedType : String) (selectedYear selectedMonth : Int)
    (currentYear currentMonth : Int) : Bool :=
  if selectedType = "monthly" then
    decide (selectedYear < currentYear) ||
      (decide (selectedYear = currentYear) && decide (selectedMonth < currentMonth))
  else
    decide (selectedYear < currentYear)

/-! ## `pages/ReviewPage.jsx` -/

/-- The report held in `reviewData`; the page itself reads only `review_id`,
the rest of the report is carried along as `body`. -/
structure ReviewReport where
  review_id : Nat
  body : String
deriving DecidableEq, Repr

/-- How an awaited request ends: it throws (a rejected `fetch`, an unreadable
body) with `err.message`, or it yields the parsed response body. -/
inductive Outcome (α : Type) where
  | throws (message : String)
  | returns (result : α)
deriving DecidableEq, Repr

/-- The `requestBody` of `POST /api/reviews/generate`. -/
structure GenerateBody where
  review_type : String
  year : Int
  month : Option Int
  regenerate : Bool
deriving DecidableEq, Repr

/-- Response body of `POST /api/reviews/generate`. -/
structure GenerateResult where
  success : Bool
  review_id : Nat
  message : Option String
deriving DecidableEq, Repr

/-- Response body of `GET /api/reviews/{review_id}`. -/
structure ReviewResult where
  success : Bool
  data : Option ReviewReport
  message : Option String
deriving DecidableEq, Repr

/-- Response body of `GET /api/reviews/{review_id}/export?format=...`. -/
structure ExportResult where
  success : Bool
  content : String
  filename : String
  message : Option String
deriving DecidableEq, Repr

/-- The remote API, as seen from the page: what each request ends in. -/
structure Api where
  generate : GenerateBody → Outcome GenerateResult
  review : Nat → Outcome ReviewResult
  exportReview : Nat → String → Outcome ExportResult

/-- What the page does to the outside, in order. -/
inductive Effect where
  | postGenerate (body : GenerateBody)
  | getReview (reviewId : Nat)
  | getExport (reviewId : Nat) (format : String)
  | download (filename content : String)
  | alert (message : String)
deriving DecidableEq, Repr

/-- The `useState` cells of `ReviewPage`. -/
structure ReviewPage where
  selectedType : String
  selectedYear : Int
  selectedMonth : Int
  reviewData : Option ReviewReport
  loading : Bool
  error : Option String
deriving DecidableEq, Repr

/-- `result.message || fallback`: a missing or empty message is falsy. -/
def messageOr (message : Option String) (fallback : String) : String :=
  match message with
  | some m => if m = "" then fallback else m
  | none => fallback

/-- `loadReviewData(reviewId)`. -/
def loadReviewData (api : Api) (reviewId : Nat) (st : ReviewPage) :
    ReviewPage × List Effect :=
  match api.review reviewId with
  | Outcome.returns result =>
    if result.success then
      ({ st with reviewData := result.data }, [Effect.getReview reviewId])
    else
      ({ st with error := some (messageOr result.message "加载回顾数据失败") },
        [Effect.getReview reviewId])
  | Outcome.throws message =>
    ({ st with error := some ("加载数据失败: " ++ message) }, [Effect.getReview reviewId])

/-- The `requestBody` built by `handleGenerateReview`. -/
def requestBody (st : ReviewPage) : GenerateBody :=
  { review_type := st.selectedType
    year := st.selectedYear
    month := if st.selectedType = "monthly" then some (st.selectedMonth + 1) else none
    regenerate := false }

/-- The synchronous start of `handleGenerateReview`: `setLoading(true)`,
`setError(null)`. -/
def beginGenerate (st : ReviewPage) : ReviewPage :=
  { st with loading := true, error := none }

/-- `handleGenerateReview`, run to completion: the final state and the
requests issued. -/
def handleGenerateReview (api : Api) (st : ReviewPage) : ReviewPage × List Effect :=
  let st1 := beginGenerate st
  let body := requestBody st
  match api.generate body with
  | Outcome.returns result =>
    if result.success then
      let r := loadReviewData api result.review_id st1
      ({ r.1 with loading := false }, Effect.postGenerate body :: r.2)
    else
      ({ st1 with error := some (messageOr result.message "生成回顾失败"), loading := false },
        [Effect.postGenerate body])
  | Outcome.throws message =>
    ({ st1 with error := some ("网络错误: " ++ message), loading := false },
      [Effect.postGenerate body])

/-- `handleExport(format)`: the effects it has; it changes no state. -/
def handleExport (api : Api) (format : String) (st : ReviewPage) : List Effect :=
  match st.reviewData with
  | none => []
  | some reviewData =>
    match api.exportReview reviewData.review_id format with
    | Outcome.returns result =>
      if result.success && decide (format = "markdown") then
        [Effect.getExport reviewData.review_id format,
          Effect.download result.filename result.content]
      else
        [Effect.getExport reviewData.review_id format,
          Effect.alert (messageOr result.message "导出失败")]
    | Outcome.throws message =>
      [Effect.getExport reviewData.review_id format, Effect.alert ("导出失败: " ++ message)]

/-- The `disabled` attribute of the generate button of `ReviewSelector`:
`!canGenerate() || loading`. -/
def generateDisabled (selectedType : String) (selectedYear selectedMonth : Int)
    (currentYear currentMonth : Int) (loading : Bool) : Bool :=
  !canGenerate selectedType selectedYear selectedMonth currentYear currentMonth || loading

/-- The label of the generate button: `loading ? '生成中...' : '生成回顾'`. -/
def generateLabel (loading : Bool) : String :=
  if loading then "生成中..." else "生成回顾"

/-- A click of the user on the generate button (`onClick={onGenerate}`, with
`onGenerate={handleGenerateReview}`): a disabled button receives no click. -/
def clickGenerate (api : Api) (currentYear currentMonth : Int) (st : ReviewPage) :
    ReviewPage × List Effect :=
  if generateDisabled st.selectedType st.selectedYear st.selectedMonth currentYear currentMonth
      st.loading then (st, [])
  else handleGenerateReview api st

/-- The year and month read back (`getFullYear()`, `getMonth()`) from
`new Date(year, monthIndex)`: a year from 0 to 99 stands for 1900 + year, and a
month index outside 0..11 carries into the year (division and remainder round
down, the divisor being positive). -/
def jsDateYearMonth (year monthIndex : Int) : Int × Int :=
  let yr := if 0 ≤ year ∧ year ≤ 99 then 1900 + year else year
  (yr + monthIndex / 12, monthIndex % 12)

/-- `handleQuickSelect(type)` of `ReviewSelector`, with `now` given by its
year and 0-based month; `onTypeChange`, `onYearChange` and `onMonthChange` are
the setters of the page. -/
def handleQuickSelect (type : String) (nowYear nowMonth : Int) (st : ReviewPage) :
    ReviewPage :=
  if type = "last-month" then
    let lastMonth := jsDateYearMonth nowYear (nowMonth - 1)
    { st with selectedType := "monthly", selectedYear := lastMonth.1,
              selectedMonth := lastMonth.2 }
  else if type = "this-month" then
    { st with selectedType := "monthly", selectedYear := nowYear, selectedMonth := nowMonth }
  else if type = "last-year" then
    { st with selectedType := "annual", selectedYear := nowYear - 1 }
  else st

/-- A report, as stored after an earlier generation. -/
def olderReport : ReviewReport := { review_id := 7, body := "older report" }

/-- A report, as returned by the API. -/
def sampleReport : ReviewReport := { review_id := 42, body := "report of January" }

/-- A page left in the error state by an earlier run, an older report still stored. -/
def samplePage : ReviewPage :=
  { selectedType := "monthly"
    selectedYear := 2024
    selectedMonth := 0
    reviewData := some olderReport
    loading := false
    error := some "生成回顾失败" }

/-- An API on which generation, loading and the Markdown export succeed. -/
def sampleApi : Api :=
  { generate := fun _ => Outcome.returns { success := true, review_id := 42, message := none }
    review := fun _ => Outcome.returns { success := true, data := some sampleReport, message := none }
    exportReview := fun _ _ =>
      Outcome.returns
        { success := true, content := "# January", filename := "review.md", message := none } }

/-- An API that refuses the generation with an empty message. -/
def refusingApi : Api :=
  { generate := fun _ => Outcome.returns { success := false, review_id := 0, message := some "" }
    review := fun _ => Outcome.throws "unreachable"
    exportReview := fun _ _ => Outcome.throws "offline" }

/-! ## `components/TopicCloud.jsx` -/

/-- One entry of `topics`; `weight` is the exact value of the JSON number. -/
structure Topic where
  topic_name : String
  weight : ℚ
  frequency : Int
  description : String
deriving DecidableEq, Repr

/-- `getFontSize`: the size of a topic, in `em`. -/
def getFontSize (weight : ℚ) : JsNumber :=
  let minSize := JsNumber.ofRat 0.9
  let maxSize := JsNumber.ofRat 2.5
  JsNumber.add minSize (JsNumber.mul (JsNumber.ofRat weight) (JsNumber.sub maxSize minSize))

/-- The sizes of the items of the cloud: `topics.map(topic => getFontSize(topic.weight))`. -/
def topicFontSizes (topics : List Topic) : List JsNumber :=
  topics.map (fun topic => getFontSize topic.weight)

/-! ## `pages/ChatPage.jsx` -/

/-- A JavaScript string: its UTF-16 code units. -/
abbrev JsString := List UInt16

/-- The UTF-16 code units of one character: itself below `0x10000`, a pair of
surrogates above. -/
def charCodeUnits (c : Char) : List UInt16 :=
  if c.toNat < 0x10000 then [UInt16.ofNat c.toNat]
  else
    [UInt16.ofNat (0xD800 + (c.toNat - 0x10000) / 0x400),
      UInt16.ofNat (0xDC00 + (c.toNat - 0x10000) % 0x400)]

/-- The JavaScript string of a text. -/
def toJsString (s : String) : JsString :=
  s.data.flatMap charCodeUnits

/-- `s.substring(0, n)`: the first `n` code units. -/
def substringFromStart (s : JsString) (n : Nat) : JsString :=
  s.take n

/-- One chat message; `timestamp` is the clock reading of `new Date()`. -/
structure ChatMessage where
  id : Nat
  content : JsString
  role : String
  timestamp : Nat
deriving DecidableEq, Repr

/-- The callback handed to `setTimeout`: it closes over the `messages` and the
`inputValue` of the render in which `handleSend` ran. -/
structure PendingReply where
  messages : List ChatMessage
  inputValue : String
deriving DecidableEq, Repr

/-- The page: its two `useState` cells and the timers not yet fired, oldest
first (all have the same delay, so they fire in the order they were set). -/
structure ChatPage where
  messages : List ChatMessage
  inputValue : String
  timers : List PendingReply
deriving DecidableEq, Repr

/-- White space and line terminators, as removed by `String.prototype.trim`. -/
def jsIsWhiteSpace (c : Char) : Bool :=
  let n := c.toNat
  n = 0x09 || n = 0x0A || n = 0x0B || n = 0x0C || n = 0x0D || n = 0x20 || n = 0xA0 ||
    n = 0x1680 || (0x2000 ≤ n && n ≤ 0x200A) || n = 0x2028 || n = 0x2029 || n = 0x202F ||
    n = 0x205F || n = 0x3000 || n = 0xFEFF

/-- `String.prototype.trim`. -/
def jsTrim (s : String) : String :=
  String.mk ((s.data.dropWhile jsIsWhiteSpace).reverse.dropWhile jsIsWhiteSpace).reverse

/-- The initial `messages`: the greeting. -/
def initialMessages (now : Nat) : List ChatMessage :=
  [{ id := 1
     content := toJsString "你好！我是你的记忆回响AI助手。今天过得怎么样？有什么想聊的吗？"
     role := "assistant"
     timestamp := now }]

/-- The page as first rendered. -/
def initialChatPage (now : Nat) : ChatPage :=
  { messages := initialMessages now, inputValue := "", timers := [] }

/-- The `userMessage` of `handleSend`. -/
def userMessage (st : ChatPage) (now : Nat) : ChatMessage :=
  { id := st.messages.length + 1
    content := toJsString st.inputValue
    role := "user"
    timestamp := now }

/-- The `aiMessage` built when the timer fires. -/
def aiMessage (reply : PendingReply) (now : Nat) : ChatMessage :=
  { id := reply.messages.length + 2
    content := toJsString "感谢你分享关于\"" ++
      substringFromStart (toJsString reply.inputValue) 20 ++
      toJsString "...\"的内容。这听起来很有趣！能告诉我更多细节吗？"
    role := "assistant"
    timestamp := now }

/-- `handleSend`. -/
def handleSend (now : Nat) (st : ChatPage) : ChatPage :=
  if jsTrim st.inputValue = "" then st
  else
    { messages := st.messages ++ [userMessage st now]
      inputValue := ""
      timers := st.timers ++ [{ messages := st.messages, inputValue := st.inputValue }] }

/-- The timer callback itself: `setMessages(prev => [...prev, aiMessage])`. -/
def replyCallback (reply : PendingReply) (now : Nat) (prev : List ChatMessage) :
    List ChatMessage :=
  prev ++ [aiMessage reply now]

/-- The oldest pending timer fires. -/
def timerFires (now : Nat) (st : ChatPage) : ChatPage :=
  match st.timers with
  | [] => st
  | reply :: rest => { st with messages := replyCallback reply now st.messages, timers := rest }

/-- The textarea's `onChange`. -/
def handleChange (value : String) (st : ChatPage) : ChatPage :=
  { st with inputValue := value }

/-- What can happen to the page. -/
inductive ChatEvent where
  | change (value : String)
  | send (now : Nat)
  | timeout (now : Nat)
deriving DecidableEq, Repr

/-- One event. -/
def chatStep (st : ChatPage) (e : ChatEvent) : ChatPage :=
  match e with
  | ChatEvent.change value => handleChange value st
  | ChatEvent.send now => handleSend now st
  | ChatEvent.timeout now => timerFires now st

/-- A sequence of events, from a given state. -/
def chatRun (st : ChatPage) (events : List ChatEvent) : ChatPage :=
  events.foldl chatStep st

/-- The ids of the messages, in order. -/
def messageIds (st : ChatPage) : List Nat :=
  st.messages.map (fun m => m.id)

/-- The page after "a" was sent and "b" was typed, the reply to "a" not yet
arrived. -/
def pendingChatPage : ChatPage :=
  chatRun (initialChatPage 0) [ChatEvent.change "a", ChatEvent.send 1, ChatEvent.change "b"]

end EchoesOfMemory

namespace EchoesOfMemory

/-! ## Properties of the arithmetic -/

theorem floor_le_roundHalfEven (t : ℚ) : ⌊t⌋ ≤ roundHalfEven t := by
  unfold roundHalfEven
  split_ifs <;> omega

theorem roundHalfEven_le_floor_add_one (t : ℚ) : roundHalfEven t ≤ ⌊t⌋ + 1 := by
  unfold roundHalfEven
  split_ifs <;> omega

theorem abs_roundHalfEven_sub_le (t : ℚ) : |(roundHalfEven t : ℚ) - t| ≤ 1 / 2 := by
  have h1 : (⌊t⌋ : ℚ) ≤ t := Int.floor_le t
  have h2 : t < ⌊t⌋ + 1 := Int.lt_floor_add_one t
  unfold roundHalfEven
  rw [abs_le]
  split_ifs with ha hb hc
  · constructor <;> linarith
  · push_cast
    constructor <;> linarith
  · constructor <;> linarith
  · push_cast
    constructor <;> linarith

theorem roundHalfEven_intCast (n : ℤ) : roundHalfEven (n : ℚ) = n := by
  unfold roundHalfEven
  simp

theorem roundHalfEven_mono {s t : ℚ} (h : s ≤ t) : roundHalfEven s ≤ roundHalfEven t := by
  have hfl : ⌊s⌋ ≤ ⌊t⌋ := Int.floor_mono h
  rcases lt_or_eq_of_le hfl with hlt | heq
  · have h1 := roundHalfEven_le_floor_add_one s
    have h2 := floor_le_roundHalfEven t
    omega
  · unfold roundHalfEven
    rw [heq]
    have hfrac : s - ⌊t⌋ ≤ t - ⌊t⌋ := by linarith
    split_ifs <;> first | omega | (exfalso; linarith)

theorem roundHalfEven_eq_of_abs_lt {t : ℚ} {n : ℤ} (h : |t - n| < 1 / 2) :
    roundHalfEven t = n := by
  have h1 := abs_roundHalfEven_sub_le t
  rw [abs_lt] at h
  rw [abs_le] at h1
  have hlt : |((roundHalfEven t - n : ℤ) : ℚ)| < 1 := by
    rw [abs_lt]
    push_cast
    constructor <;> linarith
  have hz : |roundHalfEven t - n| < 1 := by exact_mod_cast hlt
  have := Int.abs_lt_one_iff.mp hz
  omega

theorem roundHalfEven_tie_above {t : ℚ} {n : ℤ} (h : t = n + 1 / 2) (hn : n % 2 = 0) :
    roundHalfEven t = n := by
  have hfl : ⌊t⌋ = n := by
    rw [Int.floor_eq_iff]
    constructor <;> linarith
  unfold roundHalfEven
  rw [hfl, h]
  norm_num
  omega

theorem roundHalfEven_tie_below {t : ℚ} {n : ℤ} (h : t = n - 1 / 2) (hn : n % 2 = 0) :
    roundHalfEven t = n := by
  have hfl : ⌊t⌋ = n - 1 := by
    rw [Int.floor_eq_iff]
    push_cast
    constructor <;> linarith
  unfold roundHalfEven
  rw [hfl, h]
  push_cast
  norm_num
  omega


theorem two_zpow_pos (k : ℤ) : (0 : ℚ) < 2 ^ k := zpow_pos (by norm_num) k

theorem two_zpow_le {a b : ℤ} (h : a ≤ b) : (2 : ℚ) ^ a ≤ 2 ^ b :=
  zpow_le_zpow_right₀ (by norm_num) h

theorem abs_lt_two_zpow_binadeExponent (x : ℚ) : |x| < 2 ^ (binadeExponent x + 1) := by
  rcases eq_or_ne x 0 with h0 | h0
  · rw [h0]
    simpa using two_zpow_pos (binadeExponent 0 + 1)
  · have h := Int.lt_zpow_succ_log_self (R := ℚ) (b := 2) (by norm_num) |x|
    have hle : Int.log 2 |x| ≤ binadeExponent x := by
      simp only [binadeExponent, h0, if_false]
      exact le_max_left _ _
    have h2 : (2 : ℚ) ^ (Int.log 2 |x| + 1) ≤ 2 ^ (binadeExponent x + 1) :=
      two_zpow_le (by omega)
    exact lt_of_lt_of_le (by exact_mod_cast h) h2

theorem ne_zero_of_lt_binadeExponent {x : ℚ} (h : -1022 < binadeExponent x) : x ≠ 0 := by
  intro h0
  simp [binadeExponent, h0] at h

theorem two_zpow_le_abs_of_lt_binadeExponent {x : ℚ} (h : -1022 < binadeExponent x) :
    (2 : ℚ) ^ binadeExponent x ≤ |x| := by
  have h0 : x ≠ 0 := ne_zero_of_lt_binadeExponent h
  have he : binadeExponent x = Int.log 2 |x| := by
    simp only [binadeExponent, h0, if_false] at h ⊢
    rcases max_cases (Int.log 2 |x|) (-1022) with ⟨h1, _⟩ | ⟨h1, _⟩
    · exact h1
    · rw [h1] at h
      omega
  rw [he]
  exact_mod_cast Int.zpow_log_le_self (R := ℚ) (b := 2) (by norm_num) (abs_pos.mpr h0)

theorem roundBinary64_eq (x : ℚ) :
    roundBinary64 x =
      roundHalfEven (x / 2 ^ (binadeExponent x - 52)) * 2 ^ (binadeExponent x - 52) := rfl

theorem two_zpow_succ_eq (e : ℤ) :
    (2 : ℚ) ^ (e + 1) = 9007199254740992 * 2 ^ (e - 52) := by
  rw [show (9007199254740992 : ℚ) = 2 ^ (53 : ℤ) by norm_num,
    ← zpow_add₀ (by norm_num : (2 : ℚ) ≠ 0)]
  congr 1
  ring

theorem two_zpow_eq (e : ℤ) :
    (2 : ℚ) ^ e = 4503599627370496 * 2 ^ (e - 52) := by
  rw [show (4503599627370496 : ℚ) = 2 ^ (52 : ℤ) by norm_num,
    ← zpow_add₀ (by norm_num : (2 : ℚ) ≠ 0)]
  congr 1
  ring

theorem roundHalfEven_le_of_le {t : ℚ} {n : ℤ} (h : t ≤ n) : (roundHalfEven t : ℚ) ≤ n := by
  have := roundHalfEven_mono h
  rw [roundHalfEven_intCast] at this
  exact_mod_cast this

theorem le_roundHalfEven_of_le {t : ℚ} {n : ℤ} (h : (n : ℚ) ≤ t) : (n : ℚ) ≤ roundHalfEven t := by
  have := roundHalfEven_mono h
  rw [roundHalfEven_intCast] at this
  exact_mod_cast this

theorem abs_roundBinary64_le (x : ℚ) : |roundBinary64 x| ≤ 2 ^ (binadeExponent x + 1) := by
  have hu := two_zpow_pos (binadeExponent x - 52)
  have hx := abs_lt_two_zpow_binadeExponent x
  rw [two_zpow_succ_eq] at hx ⊢
  have ht : |x / 2 ^ (binadeExponent x - 52)| ≤ 9007199254740992 := by
    rw [abs_div, abs_of_pos hu, div_le_iff₀ hu]
    exact le_of_lt hx
  rw [abs_le] at ht
  have h1 : (roundHalfEven (x / 2 ^ (binadeExponent x - 52)) : ℚ) ≤ 9007199254740992 := by
    have := roundHalfEven_le_of_le (t := x / 2 ^ (binadeExponent x - 52))
      (n := 9007199254740992) (by push_cast; exact ht.2)
    simpa using this
  have h2 : -9007199254740992 ≤ (roundHalfEven (x / 2 ^ (binadeExponent x - 52)) : ℚ) := by
    have := le_roundHalfEven_of_le (t := x / 2 ^ (binadeExponent x - 52))
      (n := -9007199254740992) (by push_cast; exact ht.1)
    simpa using this
  rw [roundBinary64_eq, abs_le]
  constructor
  · nlinarith
  · nlinarith

theorem roundBinary64_nonneg {x : ℚ} (h : 0 ≤ x) : 0 ≤ roundBinary64 x := by
  have hu := two_zpow_pos (binadeExponent x - 52)
  have ht : ((0 : ℤ) : ℚ) ≤ x / 2 ^ (binadeExponent x - 52) := by
    push_cast
    exact div_nonneg h (le_of_lt hu)
  have := le_roundHalfEven_of_le ht
  rw [roundBinary64_eq]
  push_cast at this
  exact mul_nonneg this (le_of_lt hu)

theorem roundBinary64_nonpos {x : ℚ} (h : x ≤ 0) : roundBinary64 x ≤ 0 := by
  have hu := two_zpow_pos (binadeExponent x - 52)
  have ht : x / 2 ^ (binadeExponent x - 52) ≤ ((0 : ℤ) : ℚ) := by
    push_cast
    exact div_nonpos_of_nonpos_of_nonneg h (le_of_lt hu)
  have := roundHalfEven_le_of_le ht
  rw [roundBinary64_eq]
  push_cast at this
  exact mul_nonpos_of_nonpos_of_nonneg this (le_of_lt hu)

theorem two_zpow_le_roundBinary64 {x : ℚ} (h : -1022 < binadeExponent x) (hx : 0 < x) :
    (2 : ℚ) ^ binadeExponent x ≤ roundBinary64 x := by
  have hu := two_zpow_pos (binadeExponent x - 52)
  have hle := two_zpow_le_abs_of_lt_binadeExponent h
  rw [abs_of_pos hx, two_zpow_eq] at hle
  have ht : ((4503599627370496 : ℤ) : ℚ) ≤ x / 2 ^ (binadeExponent x - 52) := by
    push_cast
    rw [le_div_iff₀ hu]
    exact hle
  have := le_roundHalfEven_of_le ht
  push_cast at this
  have hsplit := two_zpow_eq (binadeExponent x)
  have := mul_le_mul_of_nonneg_right this (le_of_lt hu)
  rw [roundBinary64_eq]
  linarith

theorem roundBinary64_le_neg_two_zpow {x : ℚ} (h : -1022 < binadeExponent x) (hx : x < 0) :
    roundBinary64 x ≤ -(2 : ℚ) ^ binadeExponent x := by
  have hu := two_zpow_pos (binadeExponent x - 52)
  have hle := two_zpow_le_abs_of_lt_binadeExponent h
  rw [abs_of_neg hx, two_zpow_eq] at hle
  have ht : x / 2 ^ (binadeExponent x - 52) ≤ ((-4503599627370496 : ℤ) : ℚ) := by
    push_cast
    rw [div_le_iff₀ hu]
    linarith
  have := roundHalfEven_le_of_le ht
  push_cast at this
  have hsplit := two_zpow_eq (binadeExponent x)
  have := mul_le_mul_of_nonneg_right this (le_of_lt hu)
  rw [roundBinary64_eq]
  linarith

/-- Rounding keeps the order. -/
theorem roundBinary64_mono {x y : ℚ} (h : x ≤ y) : roundBinary64 x ≤ roundBinary64 y := by
  rcases lt_trichotomy (binadeExponent x) (binadeExponent y) with hlt | heq | hgt
  · have hy : -1022 < binadeExponent y := by
      have : -1022 ≤ binadeExponent x := by
        unfold binadeExponent
        split
        · exact le_refl _
        · exact le_max_right _ _
      omega
    have hay := two_zpow_le_abs_of_lt_binadeExponent hy
    have hax := abs_lt_two_zpow_binadeExponent x
    have hstep : (2 : ℚ) ^ (binadeExponent x + 1) ≤ 2 ^ binadeExponent y :=
      two_zpow_le (by omega)
    have hypos : 0 < y := by
      by_contra hneg
      push_neg at hneg
      have h1 : |y| ≤ |x| := by
        rw [abs_of_nonpos hneg, abs_of_nonpos (le_trans h hneg)]
        linarith
      linarith
    have h1 := two_zpow_le_roundBinary64 hy hypos
    have h2 := (abs_le.mp (abs_roundBinary64_le x)).2
    linarith
  · rw [roundBinary64_eq, roundBinary64_eq, heq]
    have hu := two_zpow_pos (binadeExponent y - 52)
    have ht : x / 2 ^ (binadeExponent y - 52) ≤ y / 2 ^ (binadeExponent y - 52) :=
      div_le_div_of_nonneg_right h (le_of_lt hu)
    have hz := roundHalfEven_mono ht
    have hq : (roundHalfEven (x / 2 ^ (binadeExponent y - 52)) : ℚ) ≤
        roundHalfEven (y / 2 ^ (binadeExponent y - 52)) := by exact_mod_cast hz
    exact mul_le_mul_of_nonneg_right hq (le_of_lt hu)
  · have hx : -1022 < binadeExponent x := by
      have : -1022 ≤ binadeExponent y := by
        unfold binadeExponent
        split
        · exact le_refl _
        · exact le_max_right _ _
      omega
    have hax := two_zpow_le_abs_of_lt_binadeExponent hx
    have hay := abs_lt_two_zpow_binadeExponent y
    have hstep : (2 : ℚ) ^ (binadeExponent y + 1) ≤ 2 ^ binadeExponent x :=
      two_zpow_le (by omega)
    have hxneg : x < 0 := by
      by_contra hpos
      push_neg at hpos
      have h1 : |x| ≤ |y| := by
        rw [abs_of_nonneg hpos, abs_of_nonneg (le_trans hpos h)]
        exact h
      linarith
    have h1 := roundBinary64_le_neg_two_zpow hx hxneg
    have h2 := (abs_le.mp (abs_roundBinary64_le y)).1
    linarith

theorem binadeExponent_le {x : ℚ} {k : ℤ} (hx : |x| < 2 ^ (k + 1)) (hk : -1022 ≤ k) :
    binadeExponent x ≤ k := by
  unfold binadeExponent
  split
  · exact hk
  · rename_i h0
    have hlog : Int.log 2 |x| < k + 1 :=
      (Int.lt_zpow_iff_log_lt (R := ℚ) (b := 2) (by norm_num) (abs_pos.mpr h0)).mp
        (by exact_mod_cast hx)
    exact max_le (by omega) hk

theorem binadeExponent_eq {x : ℚ} {e : ℤ} (hlo : (2 : ℚ) ^ e ≤ |x|) (hhi : |x| < 2 ^ (e + 1))
    (he : -1022 ≤ e) : binadeExponent x = e := by
  apply le_antisymm (binadeExponent_le hhi he)
  have h0 : x ≠ 0 := by
    intro h0
    rw [h0, abs_zero] at hlo
    exact absurd hlo (not_le.mpr (two_zpow_pos e))
  simp only [binadeExponent, h0, if_false]
  have hlog : e ≤ Int.log 2 |x| :=
    (Int.zpow_le_iff_le_log (R := ℚ) (b := 2) (by norm_num) (abs_pos.mpr h0)).mp
      (by exact_mod_cast hlo)
  exact le_trans hlog (le_max_left _ _)

/-- A number of at most 53 significant bits, not below the subnormal grid, is
its own rounding. -/
theorem roundBinary64_of_representable (m k : ℤ) (hm : |m| < 2 ^ 53) (hk : -1074 ≤ k) :
    roundBinary64 ((m : ℚ) * 2 ^ k) = (m : ℚ) * 2 ^ k := by
  have hmq : |(m : ℚ)| < 9007199254740992 := by
    have : ((|m| : ℤ) : ℚ) < ((2 ^ 53 : ℤ) : ℚ) := Int.cast_lt.mpr hm
    push_cast at this
    exact this
  have hx : |(m : ℚ) * 2 ^ k| < 2 ^ (k + 52 + 1) := by
    rw [abs_mul, abs_of_pos (two_zpow_pos k), two_zpow_succ_eq]
    have : k + 52 - 52 = k := by ring
    rw [this]
    exact mul_lt_mul_of_pos_right hmq (two_zpow_pos k)
  have he := binadeExponent_le hx (by omega)
  obtain ⟨d, hd⟩ : ∃ d : ℕ, k = binadeExponent ((m : ℚ) * 2 ^ k) - 52 + d :=
    ⟨(k - (binadeExponent ((m : ℚ) * 2 ^ k) - 52)).toNat, by omega⟩
  have hu := two_zpow_pos (binadeExponent ((m : ℚ) * 2 ^ k) - 52)
  have hpow : (2 : ℚ) ^ k = 2 ^ (binadeExponent ((m : ℚ) * 2 ^ k) - 52) * 2 ^ d := by
    nth_rewrite 1 [hd]
    rw [zpow_add₀ (by norm_num : (2 : ℚ) ≠ 0), zpow_natCast]
  have ht : (m : ℚ) * 2 ^ k / 2 ^ (binadeExponent ((m : ℚ) * 2 ^ k) - 52) =
      ((m * 2 ^ d : ℤ) : ℚ) := by
    rw [div_eq_iff (ne_of_gt hu)]
    push_cast
    linear_combination (m : ℚ) * hpow
  rw [roundBinary64_eq, ht, roundHalfEven_intCast]
  push_cast
  linear_combination (-(m : ℚ)) * hpow

theorem roundBinary64_zero : roundBinary64 0 = 0 := by
  simpa using roundBinary64_of_representable 0 0 (by norm_num) (by norm_num)

theorem roundBinary64_intCast (n : ℤ) (hn : |n| < 2 ^ 53) : roundBinary64 (n : ℚ) = n := by
  simpa using roundBinary64_of_representable n 0 hn (by norm_num)

/-- The rounding error is at most half a unit in the last place. -/
theorem abs_roundBinary64_sub_le (x : ℚ) :
    |roundBinary64 x - x| ≤ 2 ^ (binadeExponent x - 53) := by
  have hu := two_zpow_pos (binadeExponent x - 52)
  have hhalf : (2 : ℚ) ^ (binadeExponent x - 53) = 1 / 2 * 2 ^ (binadeExponent x - 52) := by
    rw [show binadeExponent x - 52 = binadeExponent x - 53 + 1 by ring,
      zpow_add₀ (by norm_num : (2 : ℚ) ≠ 0), zpow_one]
    ring
  have hx : x / 2 ^ (binadeExponent x - 52) * 2 ^ (binadeExponent x - 52) = x :=
    div_mul_cancel₀ _ (ne_of_gt hu)
  have hdiff : roundBinary64 x - x =
      ((roundHalfEven (x / 2 ^ (binadeExponent x - 52)) : ℚ) - x / 2 ^ (binadeExponent x - 52)) *
        2 ^ (binadeExponent x - 52) := by
    rw [roundBinary64_eq, sub_mul, hx]
  rw [hdiff, abs_mul, abs_of_pos hu, hhalf]
  exact mul_le_mul_of_nonneg_right (abs_roundHalfEven_sub_le _) (le_of_lt hu)

theorem abs_roundBinary64_sub_le_of_abs_le {x : ℚ} {k : ℤ} (hx : |x| ≤ 2 ^ k) (hk : -1022 ≤ k) :
    |roundBinary64 x - x| ≤ 2 ^ (k - 53) := by
  have hlt : |x| < 2 ^ (k + 1) :=
    lt_of_le_of_lt hx (zpow_lt_zpow_right₀ (by norm_num) (by omega))
  have he := binadeExponent_le hlt hk
  exact le_trans (abs_roundBinary64_sub_le x) (two_zpow_le (by omega))

/-- Rounding does not leave an interval bounded by a power of two. -/
theorem abs_roundBinary64_le_of_abs_le {x : ℚ} {k : ℤ} (hx : |x| ≤ 2 ^ k) (hk : -1074 ≤ k) :
    |roundBinary64 x| ≤ 2 ^ k := by
  have hrep : roundBinary64 ((2 : ℚ) ^ k) = 2 ^ k := by
    simpa using roundBinary64_of_representable 1 k (by norm_num) hk
  have hrepn : roundBinary64 (-(2 : ℚ) ^ k) = -2 ^ k := by
    simpa using roundBinary64_of_representable (-1) k (by norm_num) hk
  rw [abs_le] at hx ⊢
  constructor
  · rw [← hrepn]
    exact roundBinary64_mono hx.1
  · rw [← hrep]
    exact roundBinary64_mono hx.2

/-- A rounding worked out by hand: the binade of a positive number and the
nearest integer of its scaled value are given, and checked. -/
theorem roundBinary64_eq_of_near {x : ℚ} (e n : ℤ) (hlo : (2 : ℚ) ^ e ≤ x)
    (hhi : x < 2 ^ (e + 1)) (he : -1022 ≤ e) (hn1 : (n : ℚ) - 1 / 2 < x / 2 ^ (e - 52))
    (hn2 : x / 2 ^ (e - 52) < n + 1 / 2) :
    roundBinary64 x = n * 2 ^ (e - 52) := by
  have hpos : 0 < x := lt_of_lt_of_le (two_zpow_pos e) hlo
  have habs : |x| = x := abs_of_pos hpos
  have hn : |x / 2 ^ (e - 52) - n| < 1 / 2 := by
    rw [abs_lt]
    constructor <;> linarith
  rw [roundBinary64_eq, binadeExponent_eq (by rw [habs]; exact hlo) (by rw [habs]; exact hhi) he,
    roundHalfEven_eq_of_abs_lt hn]

/-- A rounding worked out by hand, the scaled value being half-way between
two integers: the even one is taken. -/
theorem roundBinary64_eq_of_tie {x : ℚ} (e n : ℤ) (hlo : (2 : ℚ) ^ e ≤ x)
    (hhi : x < 2 ^ (e + 1)) (he : -1022 ≤ e)
    (hn : x / 2 ^ (e - 52) = n - 1 / 2 ∨ x / 2 ^ (e - 52) = n + 1 / 2) (heven : n % 2 = 0) :
    roundBinary64 x = n * 2 ^ (e - 52) := by
  have hpos : 0 < x := lt_of_lt_of_le (two_zpow_pos e) hlo
  have habs : |x| = x := abs_of_pos hpos
  rw [roundBinary64_eq, binadeExponent_eq (by rw [habs]; exact hlo) (by rw [habs]; exact hhi) he]
  rcases hn with h | h
  · rw [roundHalfEven_tie_below h heven]
  · rw [roundHalfEven_tie_above h heven]


namespace JsNumber

theorem le_def (a b : JsNumber) : a ≤ b ↔ le a b := Iff.rfl

theorem add_finite (a b : ℚ) : add (finite a) (finite b) = ofRat (a + b) := rfl

theorem sub_finite (a b : ℚ) : sub (finite a) (finite b) = ofRat (a - b) := by
  rw [sub_eq_add_neg]
  rfl

theorem mul_finite (a b : ℚ) : mul (finite a) (finite b) = ofRat (a * b) := rfl

theorem div_finite (a b : ℚ) (hb : b ≠ 0) : div (finite a) (finite b) = ofRat (a / b) := by
  simp [div, hb]

theorem maxDouble_pos : 0 < maxDouble := by
  norm_num [maxDouble]

theorem ofRat_ne_nan (x : ℚ) : ofRat x ≠ nan := by
  unfold ofRat
  split_ifs <;> simp

theorem ofRat_eq_finite {x r : ℚ} (h : roundBinary64 x = r) (hlo : -2 ^ (1023 : ℤ) ≤ r)
    (hhi : r ≤ 2 ^ (1023 : ℤ)) : ofRat x = finite r := by
  have hmax : (2 : ℚ) ^ (1023 : ℤ) ≤ maxDouble := by norm_num [maxDouble]
  unfold ofRat
  rw [h, if_neg (by linarith), if_neg (by linarith)]

theorem ofRat_of_abs_le {x : ℚ} (hx : |x| ≤ 2 ^ (1023 : ℤ)) :
    ofRat x = finite (roundBinary64 x) := by
  have h := abs_le.mp (abs_roundBinary64_le_of_abs_le hx (by norm_num))
  exact ofRat_eq_finite rfl h.1 h.2

theorem ofRat_of_representable {x : ℚ} (m k : ℤ) (hx : x = (m : ℚ) * 2 ^ k)
    (hm : |m| < 2 ^ 53) (hk : -1074 ≤ k) (hlo : -2 ^ (1023 : ℤ) ≤ x)
    (hhi : x ≤ 2 ^ (1023 : ℤ)) : ofRat x = finite x := by
  have h : roundBinary64 x = x := by
    rw [hx]
    exact roundBinary64_of_representable m k hm hk
  exact ofRat_eq_finite h hlo hhi

theorem ofRat_eq_of_representable {x r : ℚ} (m k : ℤ) (hx : x = (m : ℚ) * 2 ^ k)
    (hr : x = r) (hm : |m| < 2 ^ 53) (hk : -1074 ≤ k) (hlo : -2 ^ (1023 : ℤ) ≤ x)
    (hhi : x ≤ 2 ^ (1023 : ℤ)) : ofRat x = finite r := by
  rw [← hr]
  exact ofRat_of_representable m k hx hm hk hlo hhi

theorem eq_of_le_of_le {a : JsNumber} {r : ℚ} (h1 : finite r ≤ a) (h2 : a ≤ finite r) :
    a = finite r := by
  cases a <;> simp [le_def, le] at h1 h2 ⊢
  exact le_antisymm h2 h1

theorem negInf_le {a : JsNumber} (ha : a ≠ nan) : negInf ≤ a := by
  cases a <;> simp [le_def, le] at ha ⊢

theorem le_posInf {a : JsNumber} (ha : a ≠ nan) : a ≤ posInf := by
  cases a <;> simp [le_def, le] at ha ⊢

theorem finite_le_finite {a b : ℚ} : finite a ≤ finite b ↔ a ≤ b := by
  simp [le_def, le]

theorem le_of_le_of_le {a b c : JsNumber} (hab : a ≤ b) (hbc : b ≤ c) : a ≤ c := by
  cases a <;> cases b <;> cases c <;> simp [le_def, le] at hab hbc ⊢
  exact le_trans hab hbc

theorem ofRat_mono {x y : ℚ} (h : x ≤ y) : ofRat x ≤ ofRat y := by
  have hr := roundBinary64_mono h
  have hm := maxDouble_pos
  unfold ofRat
  split_ifs <;> simp only [le_def, le] <;> first | trivial | linarith

theorem add_finite_mono (a : ℚ) {b c : JsNumber} (h : b ≤ c) :
    add (finite a) b ≤ add (finite a) c := by
  cases b <;> cases c <;> simp only [le_def, le] at h <;> simp only [add]
  · exact negInf_le (by simp)
  · exact negInf_le (ofRat_ne_nan _)
  · exact negInf_le (by simp)
  · exact ofRat_mono (by linarith)
  · exact le_posInf (ofRat_ne_nan _)
  · exact le_posInf (by simp)

theorem mul_finite_mono {c : ℚ} (hc : 0 < c) {a b : JsNumber} (h : a ≤ b) :
    mul a (finite c) ≤ mul b (finite c) := by
  have hc0 : c ≠ 0 := ne_of_gt hc
  cases a <;> cases b <;> simp only [le_def, le] at h <;> simp only [mul, hc0, hc, if_true, if_false]
  · exact negInf_le (by simp)
  · exact negInf_le (ofRat_ne_nan _)
  · exact negInf_le (by simp)
  · exact ofRat_mono (mul_le_mul_of_nonneg_right h (le_of_lt hc))
  · exact le_posInf (ofRat_ne_nan _)
  · exact le_posInf (by simp)

end JsNumber

/-! ## Properties of `EmotionChart` -/

theorem jsDiv_of_ne_zero (a b : ℚ) (hb : b ≠ 0) : jsDiv a b = some (a / b) := by
  simp [jsDiv, hb]

theorem pointX_of_one_lt (len index : Nat) (hlen : 1 < len) :
    pointX len index = some ((index : ℚ) / ((len : ℚ) - 1) * 100) := by
  have h1 : (1 : ℚ) < (len : ℚ) := by exact_mod_cast hlen
  have hne : (len : ℚ) - 1 ≠ 0 := by linarith
  simp [pointX, jsDiv_of_ne_zero _ _ hne]

theorem length_pathPoints (fmt : Option ℚ → String) (tl : List EmotionSample) :
    (pathPoints fmt tl).length = tl.length := by
  simp [pathPoints]

theorem length_pointMarkers (tl : List EmotionSample) :
    (pointMarkers tl).length = tl.length := by
  simp [pointMarkers]

/-- C1: in a timeline of more than one sample the horizontal position of the
sample at index `i`, as used for the path points and for the markers, is
`i / (n - 1) * 100`; the first one is 0, the last one is 100, all of them lie
in `[0, 100]`, and they do not decrease with the index. -/
theorem pointX_span (tl : List EmotionSample) (hlen : 1 < tl.length) :
    (∀ i, i < tl.length →
      pointX tl.length i = some ((i : ℚ) / ((tl.length : ℚ) - 1) * 100) ∧
      ((pointMarkers tl)[i]?).map (fun m => m.cx) = some (pointX tl.length i)) ∧
    pointX tl.length 0 = some 0 ∧
    pointX tl.length (tl.length - 1) = some 100 ∧
    (∀ i, i < tl.length → ∃ x, pointX tl.length i = some x ∧ 0 ≤ x ∧ x ≤ 100) ∧
    (∀ i j, i ≤ j → j < tl.length →
      ∃ xi xj, pointX tl.length i = some xi ∧ pointX tl.length j = some xj ∧ xi ≤ xj) := by
  have h1 : (1 : ℚ) < (tl.length : ℚ) := by exact_mod_cast hlen
  have hpos : (0 : ℚ) < (tl.length : ℚ) - 1 := by linarith
  refine ⟨?_, ?_, ?_, ?_, ?_⟩
  · intro i hi
    refine ⟨pointX_of_one_lt _ _ hlen, ?_⟩
    simp [pointMarkers, List.getElem?_mapIdx, List.getElem?_eq_getElem hi]
  · rw [pointX_of_one_lt _ _ hlen]
    simp
  · rw [pointX_of_one_lt _ _ hlen]
    have hcast : ((tl.length - 1 : Nat) : ℚ) = (tl.length : ℚ) - 1 := by
      rw [Nat.cast_sub (le_of_lt hlen)]
      simp
    rw [hcast, div_self (ne_of_gt hpos)]
    norm_num
  · intro i hi
    refine ⟨_, pointX_of_one_lt _ _ hlen, ?_, ?_⟩
    · have hi0 : (0 : ℚ) ≤ (i : ℚ) := Nat.cast_nonneg i
      positivity
    · have hile : (i : ℚ) ≤ (tl.length : ℚ) - 1 := by
        have : i + 1 ≤ tl.length := hi
        have h' : ((i + 1 : Nat) : ℚ) ≤ (tl.length : ℚ) := by exact_mod_cast this
        push_cast at h'
        linarith
      have hdiv : (i : ℚ) / ((tl.length : ℚ) - 1) ≤ 1 := (div_le_one hpos).mpr hile
      linarith
  · intro i j hij _
    refine ⟨_, _, pointX_of_one_lt _ _ hlen, pointX_of_one_lt _ _ hlen, ?_⟩
    have hq : (i : ℚ) ≤ (j : ℚ) := by exact_mod_cast hij
    have hdiv : (i : ℚ) / ((tl.length : ℚ) - 1) ≤ (j : ℚ) / ((tl.length : ℚ) - 1) :=
      div_le_div_of_nonneg_right hq (le_of_lt hpos)
    linarith

theorem pointX_span_witness :
    1 < sampleTimeline.length ∧
    (∀ i, i < sampleTimeline.length →
      pointX sampleTimeline.length i =
        some ((i : ℚ) / ((sampleTimeline.length : ℚ) - 1) * 100) ∧
      ((pointMarkers sampleTimeline)[i]?).map (fun m => m.cx) =
        some (pointX sampleTimeline.length i)) ∧
    pointX sampleTimeline.length 0 = some 0 ∧
    pointX sampleTimeline.length (sampleTimeline.length - 1) = some 100 ∧
    (∀ i, i < sampleTimeline.length →
      ∃ x, pointX sampleTimeline.length i = some x ∧ 0 ≤ x ∧ x ≤ 100) ∧
    (∀ i j, i ≤ j → j < sampleTimeline.length →
      ∃ xi xj, pointX sampleTimeline.length i = some xi ∧
        pointX sampleTimeline.length j = some xj ∧ xi ≤ xj) :=
  ⟨by decide, pointX_span sampleTimeline (by decide)⟩

/-- C2: for a timeline of a single sample the source divides `0` by
`length - 1 = 0`: the horizontal position is undefined (`NaN`), not 0, in the
marker and in the text of the path. -/
theorem pointX_single_sample (fmt : Option ℚ → String) (item : EmotionSample) :
    pointX [item].length 0 = none ∧
    (pointMarkers [item]).map (fun m => m.cx) = [none] ∧
    generatePath fmt [item] = "M " ++ (fmt none ++ "," ++ fmt (pointY item)) := by
  have hx : pointX 1 0 = none := by simp [pointX, jsDiv]
  refine ⟨by simpa using hx, ?_, ?_⟩
  · simp [pointMarkers, List.mapIdx_cons, hx]
  · simp [generatePath, pathPoints, pointText, List.mapIdx_cons, hx, String.intercalate,
      String.intercalate.go]

theorem ofRat_intCast (n : ℤ) (hn : |n| < 2 ^ 53) : JsNumber.ofRat (n : ℚ) = JsNumber.finite n := by
  have hq : |(n : ℚ)| < 9007199254740992 := by
    have : ((|n| : ℤ) : ℚ) < ((2 ^ 53 : ℤ) : ℚ) := Int.cast_lt.mpr hn
    push_cast at this
    exact this
  rw [abs_lt] at hq
  exact JsNumber.ofRat_of_representable n 0 (by simp) hn (by norm_num)
    (by norm_num; linarith) (by norm_num; linarith)

theorem ofRat_minScore : JsNumber.ofRat minScore = JsNumber.finite (-1) := by
  simpa [minScore] using ofRat_intCast (-1) (by norm_num)

theorem ofRat_range : JsNumber.ofRat range = JsNumber.finite 2 := by
  have h : range = 2 := by norm_num [range, maxScore, minScore]
  simpa [h] using ofRat_intCast 2 (by norm_num)

theorem ofRat_hundred : JsNumber.ofRat 100 = JsNumber.finite 100 := by
  simpa using ofRat_intCast 100 (by norm_num)

/-- The chain of roundings behind one vertical position. -/
theorem pointY_eq_of_steps (item : EmotionSample) {s a b c y : ℚ}
    (hs : JsNumber.ofRat item.sentiment_score = JsNumber.finite s)
    (ha : JsNumber.ofRat (s - -1) = JsNumber.finite a)
    (hb : JsNumber.ofRat (a / 2) = JsNumber.finite b)
    (hc : JsNumber.ofRat (b * 100) = JsNumber.finite c)
    (hy : JsNumber.ofRat (100 - c) = JsNumber.finite y) :
    pointY item = some y := by
  unfold pointY normalizedScore
  rw [ofRat_minScore, ofRat_range, ofRat_hundred, hs, JsNumber.sub_finite, ha,
    JsNumber.div_finite _ _ (by norm_num), hb, JsNumber.mul_finite, hc, JsNumber.sub_finite, hy]
  rfl

theorem pointY_neg_one (date emotion : String) :
    pointY { date := date, sentiment_score := -1, dominant_emotion := emotion } = some 100 := by
  apply pointY_eq_of_steps (s := -1) (a := 0) (b := 0) (c := 0)
  · simpa using ofRat_intCast (-1) (by norm_num)
  · simpa using ofRat_intCast 0 (by norm_num)
  · simpa using ofRat_intCast 0 (by norm_num)
  · simpa using ofRat_intCast 0 (by norm_num)
  · simpa using ofRat_intCast 100 (by norm_num)

theorem pointY_zero (date emotion : String) :
    pointY { date := date, sentiment_score := 0, dominant_emotion := emotion } = some 50 := by
  apply pointY_eq_of_steps (s := 0) (a := 1) (b := 1 / 2) (c := 50)
  · simpa using ofRat_intCast 0 (by norm_num)
  · simpa using ofRat_intCast 1 (by norm_num)
  · exact JsNumber.ofRat_of_representable 1 (-1) (by norm_num) (by norm_num) (by norm_num)
      (by norm_num) (by norm_num)
  · have h := ofRat_intCast 50 (by norm_num)
    norm_num at h ⊢
    exact h
  · have h := ofRat_intCast 50 (by norm_num)
    norm_num at h ⊢
    exact h

theorem pointY_one (date emotion : String) :
    pointY { date := date, sentiment_score := 1, dominant_emotion := emotion } = some 0 := by
  apply pointY_eq_of_steps (s := 1) (a := 2) (b := 1) (c := 100)
  · simpa using ofRat_intCast 1 (by norm_num)
  · have h := ofRat_intCast 2 (by norm_num)
    norm_num at h ⊢
    exact h
  · have h := ofRat_intCast 1 (by norm_num)
    norm_num at h ⊢
    exact h
  · have h := ofRat_intCast 100 (by norm_num)
    norm_num at h ⊢
    exact h
  · have h := ofRat_intCast 0 (by norm_num)
    norm_num at h ⊢
    exact h

theorem pointY_tenth (date emotion : String) :
    pointY { date := date, sentiment_score := 0.1, dominant_emotion := emotion } =
      some (6333186975989759 / 140737488355328) := by
  apply pointY_eq_of_steps (s := 3602879701896397 / 36028797018963968)
    (a := 2476979795053773 / 2251799813685248) (b := 2476979795053773 / 4503599627370496)
    (c := 7740561859543041 / 140737488355328)
  · apply JsNumber.ofRat_eq_finite
    · rw [roundBinary64_eq_of_near (-4) 7205759403792794] <;> norm_num
    · norm_num
    · norm_num
  · apply JsNumber.ofRat_eq_finite
    · rw [roundBinary64_eq_of_near 0 4953959590107546] <;> norm_num
    · norm_num
    · norm_num
  · exact JsNumber.ofRat_eq_of_representable 2476979795053773 (-52) (by norm_num) (by norm_num)
      (by norm_num) (by norm_num) (by norm_num) (by norm_num)
  · apply JsNumber.ofRat_eq_finite
    · rw [roundBinary64_eq_of_near 5 7740561859543041] <;> norm_num
    · norm_num
    · norm_num
  · exact JsNumber.ofRat_eq_of_representable 6333186975989759 (-47) (by norm_num) (by norm_num)
      (by norm_num) (by norm_num) (by norm_num) (by norm_num)

theorem roundBinary64_le_hundred {x : ℚ} (h : x ≤ 100) : roundBinary64 x ≤ 100 := by
  have h1 := roundBinary64_mono h
  have h2 : roundBinary64 100 = 100 := by
    simpa using roundBinary64_intCast 100 (by norm_num)
  rwa [h2] at h1

/-- One rounded operation whose exact result is at most `2 ^ k` in size. -/
theorem ofRat_spec {x : ℚ} (k : ℤ) (hlo : -2 ^ k ≤ x) (hhi : x ≤ 2 ^ k) (hk : -1022 ≤ k)
    (hk' : k ≤ 1023) :
    ∃ r, JsNumber.ofRat x = JsNumber.finite r ∧ r - x ≤ 2 ^ (k - 53) ∧ x - r ≤ 2 ^ (k - 53) ∧
      -2 ^ k ≤ r ∧ r ≤ 2 ^ k ∧ (0 ≤ x → 0 ≤ r) ∧ (x ≤ 100 → r ≤ 100) := by
  have hx : |x| ≤ 2 ^ k := abs_le.mpr ⟨hlo, hhi⟩
  have he := abs_le.mp (abs_roundBinary64_sub_le_of_abs_le hx hk)
  have hb := abs_le.mp (abs_roundBinary64_le_of_abs_le hx (by omega))
  exact ⟨roundBinary64 x, JsNumber.ofRat_of_abs_le (le_trans hx (two_zpow_le hk')),
    he.2, by linarith [he.1], hb.1, hb.2, roundBinary64_nonneg, roundBinary64_le_hundred⟩

/-- On scores from -1 to 1 the computed vertical position is finite, lies
between 0 and 100 and is within `2 ^ (-44)` of `50 - 50 * s`. -/
theorem pointY_near (item : EmotionSample) (hlo : -1 ≤ item.sentiment_score)
    (hhi : item.sentiment_score ≤ 1) :
    ∃ y, pointY item = some y ∧ |y - (50 - 50 * item.sentiment_score)| ≤ 1 / 2 ^ 44 ∧
      0 ≤ y ∧ y ≤ 100 := by
  obtain ⟨s, hs, es1, es2, bs1, bs2, _, _⟩ := ofRat_spec (x := item.sentiment_score) 0
    (by norm_num; linarith) (by norm_num; linarith) (by norm_num) (by norm_num)
  norm_num at es1 es2 bs1 bs2
  obtain ⟨a, ha, ea1, ea2, _, ba2, ha0, _⟩ := ofRat_spec (x := s - -1) 1
    (by norm_num; linarith) (by norm_num; linarith) (by norm_num) (by norm_num)
  have ha0' := ha0 (by linarith)
  norm_num at ea1 ea2 ba2
  obtain ⟨b, hb, eb1, eb2, _, bb2, hb0, _⟩ := ofRat_spec (x := a / 2) 0
    (by norm_num; linarith) (by norm_num; linarith) (by norm_num) (by norm_num)
  have hb0' := hb0 (by linarith)
  norm_num at eb1 eb2 bb2
  obtain ⟨c, hc, ec1, ec2, _, _, hc0, hc100⟩ := ofRat_spec (x := b * 100) 7
    (by norm_num; linarith) (by norm_num; linarith) (by norm_num) (by norm_num)
  have hc0' := hc0 (by linarith)
  have hc100' := hc100 (by linarith)
  norm_num at ec1 ec2
  obtain ⟨y, hy, ey1, ey2, _, _, hy0, hy100⟩ := ofRat_spec (x := 100 - c) 7
    (by norm_num; linarith) (by norm_num; linarith) (by norm_num) (by norm_num)
  have hy0' := hy0 (by linarith)
  have hy100' := hy100 (by linarith)
  norm_num at ey1 ey2
  refine ⟨y, pointY_eq_of_steps item hs ha hb hc hy, ?_, hy0', hy100'⟩
  rw [abs_le]
  constructor <;> norm_num <;> linarith


/-- C3, as stated, fails: at the score 0.1 the computed vertical position is
6333186975989759 / 2 ^ 47 (printed 44.99999999999999), not 50 - 50 * 0.1 = 45. -/
theorem pointY_closed_form_fails :
    pointY { date := "2024-01-01", sentiment_score := 0.1, dominant_emotion := "neutral" } =
      some (6333186975989759 / 140737488355328) ∧
    pointY { date := "2024-01-01", sentiment_score := 0.1, dominant_emotion := "neutral" } ≠
      some (50 - 50 * 0.1) ∧
    pointY { date := "2024-01-01", sentiment_score := 0.1, dominant_emotion := "neutral" } ≠
      some (100 - ((0.1 - (-1)) / 2) * 100) := by
  rw [pointY_tenth]
  refine ⟨rfl, ?_, ?_⟩ <;> norm_num

/-- C3, amended: the vertical position of a sample of score `s` is the result
of `100 - ((s - (-1)) / 2) * 100` in binary64 arithmetic, each operation being
rounded; for a score from -1 to 1 it is a finite number from 0 to 100 within
`2 ^ (-44)` of `50 - 50 * s`; the scores -1, 0 and 1 are drawn at exactly 100,
50 and 0. -/
theorem pointY_rounded :
    (∀ item : EmotionSample,
      pointY item =
        (JsNumber.sub (JsNumber.finite 100)
          (JsNumber.mul
            (JsNumber.div
              (JsNumber.sub (JsNumber.ofRat item.sentiment_score) (JsNumber.finite (-1)))
              (JsNumber.finite 2))
            (JsNumber.finite 100))).toFinite) ∧
    (∀ item : EmotionSample, -1 ≤ item.sentiment_score → item.sentiment_score ≤ 1 →
      ∃ y, pointY item = some y ∧ |y - (50 - 50 * item.sentiment_score)| ≤ 1 / 2 ^ 44 ∧
        0 ≤ y ∧ y ≤ 100) ∧
    (∀ date emotion,
      pointY { date := date, sentiment_score := -1, dominant_emotion := emotion } = some 100 ∧
      pointY { date := date, sentiment_score := 0, dominant_emotion := emotion } = some 50 ∧
      pointY { date := date, sentiment_score := 1, dominant_emotion := emotion } = some 0) := by
  refine ⟨fun item => ?_, pointY_near, fun date emotion =>
    ⟨pointY_neg_one date emotion, pointY_zero date emotion, pointY_one date emotion⟩⟩
  simp only [pointY, normalizedScore, ofRat_minScore, ofRat_range, ofRat_hundred]

theorem pointY_rounded_witness :
    (-1 : ℚ) ≤ 0.1 ∧ (0.1 : ℚ) ≤ 1 ∧
    ∃ y,
      pointY { date := "2024-01-01", sentiment_score := 0.1, dominant_emotion := "neutral" } =
        some y ∧
      |y - (50 - 50 * 0.1)| ≤ 1 / 2 ^ 44 ∧ 0 ≤ y ∧ y ≤ 100 :=
  ⟨by norm_num, by norm_num,
    pointY_rounded.2.1
      { date := "2024-01-01", sentiment_score := 0.1, dominant_emotion := "neutral" }
      (by norm_num) (by norm_num)⟩

/-- C4: for a non-empty timeline the chart is drawn; its stroke is `"M "`
followed by the points joined by `" L "`, its area is `"M 0,100 L "`, the same
points, `" L 100,100 Z"`; there are as many points and as many markers as
samples, and the `k`-th point and the `k`-th marker are computed from the
`k`-th sample (nothing is sorted, dropped or merged). -/
theorem emotionChart_keeps_order (fmt : Option ℚ → String) (tl : List EmotionSample)
    (hne : tl ≠ []) :
    ∃ points markers firstDate lastDate,
      EmotionChart fmt (some tl) =
        ChartView.chart ("M 0,100 L " ++ " L ".intercalate points ++ " L 100,100 Z")
          ("M " ++ " L ".intercalate points) markers firstDate lastDate ∧
      points.length = tl.length ∧ markers.length = tl.length ∧
      ∀ k (hk : k < tl.length),
        points[k]? = some (fmt (pointX tl.length k) ++ "," ++ fmt (pointY tl[k])) ∧
        markers[k]? = some
          { key := k, cx := pointX tl.length k, cy := pointY tl[k],
            fill := getEmotionColor tl[k].dominant_emotion } := by
  have hlen : tl.length ≠ 0 := by
    intro h
    exact hne (List.length_eq_zero.mp h)
  refine ⟨pathPoints fmt tl, pointMarkers tl, tl[0]?.map (fun item => item.date),
    tl[tl.length - 1]?.map (fun item => item.date), ?_, length_pathPoints fmt tl,
    length_pointMarkers tl, ?_⟩
  · simp only [EmotionChart, hlen, if_false, generateAreaPath, generatePath]
  · intro k hk
    constructor
    · simp [pathPoints, pointText, List.getElem?_mapIdx, List.getElem?_eq_getElem hk]
    · simp [pointMarkers, List.getElem?_mapIdx, List.getElem?_eq_getElem hk]

theorem emotionChart_keeps_order_witness :
    sampleTimeline ≠ [] ∧
    ∃ points markers firstDate lastDate,
      EmotionChart sampleFmt (some sampleTimeline) =
        ChartView.chart ("M 0,100 L " ++ " L ".intercalate points ++ " L 100,100 Z")
          ("M " ++ " L ".intercalate points) markers firstDate lastDate ∧
      points.length = sampleTimeline.length ∧ markers.length = sampleTimeline.length ∧
      ∀ k (hk : k < sampleTimeline.length),
        points[k]? = some (sampleFmt (pointX sampleTimeline.length k) ++ "," ++
          sampleFmt (pointY sampleTimeline[k])) ∧
        markers[k]? = some
          { key := k, cx := pointX sampleTimeline.length k, cy := pointY sampleTimeline[k],
            fill := getEmotionColor sampleTimeline[k].dominant_emotion } :=
  ⟨by decide, emotionChart_keeps_order sampleFmt sampleTimeline (by decide)⟩

/-! ## Properties of `ReviewSelector` and `ReviewPage` -/

theorem append_ne_empty (a b : String) (ha : a ≠ "") : a ++ b ≠ "" := by
  intro h
  apply ha
  have hd : (a ++ b).data = [] := by rw [h]
  rw [String.data_append] at hd
  exact String.ext (List.append_eq_nil.mp hd).1

theorem messageOr_ne_empty (message : Option String) (fallback : String)
    (hf : fallback ≠ "") : messageOr message fallback ≠ "" := by
  unfold messageOr
  split
  · split
    · exact hf
    · assumption
  · exact hf

/-- C5: when the generate request succeeds with a review id and the fetch of
that review succeeds with a report, exactly two requests are issued, the
second one for the id the first one returned, and the final state is the
initial one with `loading = false`, `error = null` and the stored report
replaced by the fetched one. -/
theorem handleGenerateReview_success (api : Api) (st : ReviewPage) (g : GenerateResult)
    (r : ReviewResult) (d : ReviewReport)
    (hg : api.generate (requestBody st) = Outcome.returns g) (hgs : g.success = true)
    (hr : api.review g.review_id = Outcome.returns r) (hrs : r.success = true)
    (hd : r.data = some d) :
    (handleGenerateReview api st).2 =
      [Effect.postGenerate (requestBody st), Effect.getReview g.review_id] ∧
    (handleGenerateReview api st).1 =
      { st with reviewData := some d, loading := false, error := none } := by
  simp [handleGenerateReview, loadReviewData, beginGenerate, hg, hgs, hr, hrs, hd]

theorem handleGenerateReview_success_witness :
    sampleApi.generate (requestBody samplePage) =
      Outcome.returns { success := true, review_id := 42, message := none } ∧
    sampleApi.review 42 =
      Outcome.returns { success := true, data := some sampleReport, message := none } ∧
    (handleGenerateReview sampleApi samplePage).2 =
      [Effect.postGenerate (requestBody samplePage), Effect.getReview 42] ∧
    (handleGenerateReview sampleApi samplePage).1 =
      { samplePage with reviewData := some sampleReport, loading := false, error := none } :=
  ⟨rfl, rfl,
    handleGenerateReview_success sampleApi samplePage
      { success := true, review_id := 42, message := none }
      { success := true, data := some sampleReport, message := none } sampleReport
      rfl rfl rfl rfl rfl⟩

/-- C6: when the generate request throws or is answered with a false success
flag, or the fetch that follows throws or is answered with a false success
flag, the run ends with `loading = false` and a non-empty error message, the
stored report untouched, and the failing request is the last one issued. -/
theorem handleGenerateReview_failure (api : Api) (st : ReviewPage)
    (hfail : (∃ m, api.generate (requestBody st) = Outcome.throws m) ∨
      (∃ g, api.generate (requestBody st) = Outcome.returns g ∧ g.success = false) ∨
      (∃ g, api.generate (requestBody st) = Outcome.returns g ∧ g.success = true ∧
        ((∃ m, api.review g.review_id = Outcome.throws m) ∨
          (∃ r, api.review g.review_id = Outcome.returns r ∧ r.success = false)))) :
    ∃ msg, msg ≠ "" ∧
      (handleGenerateReview api st).1 = { st with loading := false, error := some msg } ∧
      (handleGenerateReview api st).2 =
        match api.generate (requestBody st) with
        | Outcome.returns g =>
          if g.success then [Effect.postGenerate (requestBody st), Effect.getReview g.review_id]
          else [Effect.postGenerate (requestBody st)]
        | Outcome.throws _ => [Effect.postGenerate (requestBody st)] := by
  rcases hfail with ⟨m, hm⟩ | ⟨g, hg, hgs⟩ | ⟨g, hg, hgs, ⟨m, hm⟩ | ⟨r, hr, hrs⟩⟩
  · exact ⟨"网络错误: " ++ m, append_ne_empty _ _ (by decide),
      by simp [handleGenerateReview, beginGenerate, hm]⟩
  · exact ⟨messageOr g.message "生成回顾失败", messageOr_ne_empty _ _ (by decide),
      by simp [handleGenerateReview, beginGenerate, hg, hgs]⟩
  · exact ⟨"加载数据失败: " ++ m, append_ne_empty _ _ (by decide),
      by simp [handleGenerateReview, loadReviewData, beginGenerate, hg, hgs, hm]⟩
  · exact ⟨messageOr r.message "加载回顾数据失败", messageOr_ne_empty _ _ (by decide),
      by simp [handleGenerateReview, loadReviewData, beginGenerate, hg, hgs, hr, hrs]⟩

theorem handleGenerateReview_failure_witness :
    refusingApi.generate (requestBody samplePage) =
      Outcome.returns { success := false, review_id := 0, message := some "" } ∧
    ∃ msg, msg ≠ "" ∧
      (handleGenerateReview refusingApi samplePage).1 =
        { samplePage with loading := false, error := some msg } ∧
      (handleGenerateReview refusingApi samplePage).2 =
        [Effect.postGenerate (requestBody samplePage)] :=
  ⟨rfl, handleGenerateReview_failure refusingApi samplePage
    (Or.inr (Or.inl ⟨{ success := false, review_id := 0, message := some "" }, rfl, rfl⟩))⟩

/-- C7: `canGenerate` holds exactly when the selected period is over: for
`monthly`, when (year, month) comes strictly before (currentYear,
currentMonth) in the lexicographic order; for `annual` (and any other type),
when year is strictly before currentYear.  It fails for the current month and
for the current year. -/
theorem canGenerate_iff (selectedType : String) (year month currentYear currentMonth : Int) :
    (canGenerate selectedType year month currentYear currentMonth = true ↔
      if selectedType = "monthly" then toLex (year, month) < toLex (currentYear, currentMonth)
      else year < currentYear) ∧
    (canGenerate "monthly" year month currentYear currentMonth = true ↔
      toLex (year, month) < toLex (currentYear, currentMonth)) ∧
    (canGenerate "annual" year month currentYear currentMonth = true ↔ year < currentYear) ∧
    canGenerate "monthly" currentYear currentMonth currentYear currentMonth = false ∧
    canGenerate "annual" currentYear month currentYear currentMonth = false := by
  have hmonthly : ∀ y m : Int, (canGenerate "monthly" y m currentYear currentMonth = true ↔
      toLex (y, m) < toLex (currentYear, currentMonth)) := by
    intro y m
    simp [canGenerate, Prod.Lex.lt_iff]
  have hannual : ∀ y m : Int, (canGenerate "annual" y m currentYear currentMonth = true ↔
      y < currentYear) := by
    intro y m
    simp [canGenerate]
  refine ⟨?_, hmonthly year month, hannual year month, ?_, ?_⟩
  · by_cases ht : selectedType = "monthly"
    · subst ht
      simpa using hmonthly year month
    · simp [canGenerate, ht]
  · simp [canGenerate]
  · simp [canGenerate]

/-- C8: without a stored report `handleExport` does nothing.  With one, it
issues the export request for the stored review and the given format; when
the request is answered with a true success flag and the format is
`markdown`, one download follows, named with the filename of the response;
in every other outcome no download follows and a non-empty message is shown. -/
theorem handleExport_spec (api : Api) (format : String) (st : ReviewPage) :
    match st.reviewData with
    | none => handleExport api format st = []
    | some reviewData =>
      (∀ result, api.exportReview reviewData.review_id format = Outcome.returns result →
        result.success = true → format = "markdown" →
        handleExport api format st =
          [Effect.getExport reviewData.review_id format,
            Effect.download result.filename result.content]) ∧
      ((¬ ∃ result, api.exportReview reviewData.review_id format = Outcome.returns result ∧
          result.success = true ∧ format = "markdown") →
        ∃ msg, msg ≠ "" ∧
          handleExport api format st =
            [Effect.getExport reviewData.review_id format, Effect.alert msg]) ∧
      ((∃ filename content, Effect.download filename content ∈ handleExport api format st) ↔
        ∃ result, api.exportReview reviewData.review_id format = Outcome.returns result ∧
          result.success = true ∧ format = "markdown") := by
  cases hrd : st.reviewData with
  | none => simp [handleExport, hrd]
  | some reviewData =>
    simp only
    have hyes : ∀ result,
        api.exportReview reviewData.review_id format = Outcome.returns result →
        result.success = true → format = "markdown" →
        handleExport api format st =
          [Effect.getExport reviewData.review_id format,
            Effect.download result.filename result.content] := by
      intro result hres hs hf
      subst hf
      simp [handleExport, hrd, hres, hs]
    have hno : (¬ ∃ result,
        api.exportReview reviewData.review_id format = Outcome.returns result ∧
          result.success = true ∧ format = "markdown") →
        ∃ msg, msg ≠ "" ∧
          handleExport api format st =
            [Effect.getExport reviewData.review_id format, Effect.alert msg] := by
      intro hnot
      cases hres : api.exportReview reviewData.review_id format with
      | throws m =>
        exact ⟨"导出失败: " ++ m, append_ne_empty _ _ (by decide),
          by simp [handleExport, hrd, hres]⟩
      | returns result =>
        have hc : ¬ (result.success = true ∧ format = "markdown") := by
          intro hc
          exact hnot ⟨result, hres, hc.1, hc.2⟩
        refine ⟨messageOr result.message "导出失败", messageOr_ne_empty _ _ (by decide), ?_⟩
        simp only [handleExport, hrd, hres]
        rw [if_neg]
        simpa using hc
    refine ⟨hyes, hno, ?_⟩
    constructor
    · rintro ⟨filename, content, hmem⟩
      by_contra hnot
      obtain ⟨msg, _, hlog⟩ := hno hnot
      rw [hlog] at hmem
      simp at hmem
    · rintro ⟨result, hres, hs, hf⟩
      exact ⟨result.filename, result.content, by rw [hyes result hres hs hf]; simp⟩

/-! ## Properties of `ChatPage` -/

/-- C9: two sends before the first reply arrives.  The second user message
and the first reply are both given the id 3: the ids of the reachable state
are neither strictly increasing nor pairwise distinct. -/
theorem messageIds_overlapping_sends :
    messageIds (chatRun (initialChatPage 0)
      [ChatEvent.change "a", ChatEvent.send 1, ChatEvent.change "b", ChatEvent.send 2,
        ChatEvent.timeout 3, ChatEvent.timeout 4]) = [1, 2, 3, 3, 4] ∧
    ¬ (messageIds (chatRun (initialChatPage 0)
      [ChatEvent.change "a", ChatEvent.send 1, ChatEvent.change "b", ChatEvent.send 2,
        ChatEvent.timeout 3, ChatEvent.timeout 4])).Pairwise (fun a b => a < b) ∧
    ¬ (messageIds (chatRun (initialChatPage 0)
      [ChatEvent.change "a", ChatEvent.send 1, ChatEvent.change "b", ChatEvent.send 2,
        ChatEvent.timeout 3, ChatEvent.timeout 4])).Nodup := by
  have h : messageIds (chatRun (initialChatPage 0)
      [ChatEvent.change "a", ChatEvent.send 1, ChatEvent.change "b", ChatEvent.send 2,
        ChatEvent.timeout 3, ChatEvent.timeout 4]) = [1, 2, 3, 3, 4] := by
    decide
  rw [h]
  exact ⟨rfl, by decide, by decide⟩

/-- The quotation counts UTF-16 code units: of eleven characters of two code
units each, ten are kept, and a character may be cut in two. -/
theorem substringFromStart_code_units :
    substringFromStart (toJsString "😀😀😀😀😀😀😀😀😀😀😀") 20 =
      toJsString "😀😀😀😀😀😀😀😀😀😀" ∧
    substringFromStart (toJsString "a😀😀😀😀😀😀😀😀😀😀") 20 =
      toJsString "a😀😀😀😀😀😀😀😀😀" ++ [0xD83D] := by
  decide

/-- C10, as stated, fails: "b" is sent while the reply to "a" is pending and
no other send follows; the message appended by the first timer is the reply
to "a", and once the reply to "b" has arrived the sequence is the old one
followed by three messages, not two. -/
theorem handleSend_pending_reply_fails :
    jsTrim pendingChatPage.inputValue ≠ "" ∧
    (chatRun pendingChatPage [ChatEvent.send 2, ChatEvent.timeout 3]).messages =
      pendingChatPage.messages ++
        [{ id := 3, content := toJsString "b", role := "user", timestamp := 2 },
         aiMessage { messages := initialMessages 0, inputValue := "a" } 3] ∧
    (chatRun pendingChatPage
        [ChatEvent.send 2, ChatEvent.timeout 3, ChatEvent.timeout 4]).messages =
      pendingChatPage.messages ++
        [{ id := 3, content := toJsString "b", role := "user", timestamp := 2 },
         aiMessage { messages := initialMessages 0, inputValue := "a" } 3,
         aiMessage { messages := pendingChatPage.messages, inputValue := "b" } 4] ∧
    (chatRun pendingChatPage
        [ChatEvent.send 2, ChatEvent.timeout 3, ChatEvent.timeout 4]).messages.length =
      pendingChatPage.messages.length + 3 := by
  refine ⟨by decide, rfl, rfl, rfl⟩

/-- C10, amended: a send of a text whose trimmed form is not empty appends at
once one message, by `user`, with the text as content and the id `length + 1`,
empties the input and sets one timer; when that timer fires it appends one
message, by `assistant`, whose content quotes the first 20 UTF-16 code units
of the text; if no reply of an earlier send is pending at the send, the send
followed by its timer leaves the old messages in place, followed by these
two. -/
theorem handleSend_appends (now later : Nat) (st : ChatPage)
    (ht : jsTrim st.inputValue ≠ "") :
    ∃ reply : PendingReply,
      handleSend now st =
        { messages := st.messages ++
            [{ id := st.messages.length + 1, content := toJsString st.inputValue,
               role := "user", timestamp := now }]
          inputValue := ""
          timers := st.timers ++ [reply] } ∧
      (∀ prev, replyCallback reply later prev = prev ++
        [{ id := st.messages.length + 2
           content := toJsString "感谢你分享关于\"" ++
             (toJsString st.inputValue).take 20 ++
             toJsString "...\"的内容。这听起来很有趣！能告诉我更多细节吗？"
           role := "assistant"
           timestamp := later }]) ∧
      (st.timers = [] →
        timerFires later (handleSend now st) =
          { messages := st.messages ++
              [{ id := st.messages.length + 1, content := toJsString st.inputValue,
                 role := "user", timestamp := now },
               { id := st.messages.length + 2
                 content := toJsString "感谢你分享关于\"" ++
                   (toJsString st.inputValue).take 20 ++
                   toJsString "...\"的内容。这听起来很有趣！能告诉我更多细节吗？"
                 role := "assistant"
                 timestamp := later }]
            inputValue := ""
            timers := [] } ∧
        (timerFires later (handleSend now st)).messages.length = st.messages.length + 2 ∧
        ∀ k, k < st.messages.length →
          (timerFires later (handleSend now st)).messages[k]? = st.messages[k]?) := by
  refine ⟨{ messages := st.messages, inputValue := st.inputValue }, ?_, ?_, ?_⟩
  · simp [handleSend, ht, userMessage]
  · intro prev
    simp [replyCallback, aiMessage, substringFromStart]
  · intro hq
    have hfire : timerFires later (handleSend now st) =
        { messages := st.messages ++
            [{ id := st.messages.length + 1, content := toJsString st.inputValue,
               role := "user", timestamp := now },
             { id := st.messages.length + 2
               content := toJsString "感谢你分享关于\"" ++
                 (toJsString st.inputValue).take 20 ++
                 toJsString "...\"的内容。这听起来很有趣！能告诉我更多细节吗？"
               role := "assistant"
               timestamp := later }]
          inputValue := ""
          timers := [] } := by
      simp [handleSend, ht, userMessage, timerFires, hq, replyCallback, aiMessage,
        substringFromStart]
    refine ⟨hfire, ?_, ?_⟩
    · rw [hfire]
      simp
    · intro k hk
      rw [hfire]
      simp [List.getElem?_append_left hk]

theorem handleSend_appends_witness :
    jsTrim (handleChange "hello" (initialChatPage 0)).inputValue ≠ "" ∧
    (handleChange "hello" (initialChatPage 0)).timers = [] ∧
    (timerFires 2 (handleSend 1 (handleChange "hello" (initialChatPage 0)))).messages =
      initialMessages 0 ++
        [{ id := 2, content := toJsString "hello", role := "user", timestamp := 1 },
         { id := 3
           content := toJsString "感谢你分享关于\"hello...\"的内容。这听起来很有趣！能告诉我更多细节吗？"
           role := "assistant"
           timestamp := 2 }] := by
  have ht : jsTrim (handleChange "hello" (initialChatPage 0)).inputValue ≠ "" := by decide
  obtain ⟨_, _, _, h⟩ := handleSend_appends 1 2 (handleChange "hello" (initialChatPage 0)) ht
  refine ⟨ht, rfl, ?_⟩
  rw [(h rfl).1]
  decide

theorem jsTrim_of_all_whiteSpace (s : String)
    (h : ∀ c ∈ s.data, jsIsWhiteSpace c = true) : jsTrim s = "" := by
  have hdrop : s.data.dropWhile jsIsWhiteSpace = [] := List.dropWhile_eq_nil_iff.mpr h
  simp [jsTrim, hdrop]

/-- C11: a send while the input is empty or made of white space only changes
nothing: the messages, the input and the pending timers are those of before
(no message is added, no reply is scheduled). -/
theorem handleSend_blank (now : Nat) (st : ChatPage)
    (hblank : ∀ c ∈ st.inputValue.data, jsIsWhiteSpace c = true) :
    handleSend now st = st ∧
    (handleSend now st).messages = st.messages ∧
    (handleSend now st).inputValue = st.inputValue ∧
    (handleSend now st).timers = st.timers := by
  have h : handleSend now st = st := by
    simp [handleSend, jsTrim_of_all_whiteSpace _ hblank]
  simp [h]

theorem handleSend_blank_witness :
    ((∀ c ∈ (initialChatPage 0).inputValue.data, jsIsWhiteSpace c = true) ∧
      handleSend 1 (initialChatPage 0) = initialChatPage 0) ∧
    ((∀ c ∈ (handleChange "   " (initialChatPage 0)).inputValue.data,
        jsIsWhiteSpace c = true) ∧
      handleSend 1 (handleChange "   " (initialChatPage 0)) =
        handleChange "   " (initialChatPage 0)) :=
  ⟨⟨by decide, (handleSend_blank 1 (initialChatPage 0) (by decide)).1⟩,
    ⟨by decide, (handleSend_blank 1 (handleChange "   " (initialChatPage 0)) (by decide)).1⟩⟩

/-! ## Properties of `TopicCloud` -/

theorem ofRat_minSize :
    JsNumber.ofRat 0.9 = JsNumber.finite (8106479329266893 / 9007199254740992) := by
  apply JsNumber.ofRat_eq_finite
  · rw [roundBinary64_eq_of_near (-1) 8106479329266893] <;> norm_num
  · norm_num
  · norm_num

theorem ofRat_maxSize : JsNumber.ofRat 2.5 = JsNumber.finite (5 / 2) := by
  have h := JsNumber.ofRat_of_representable (x := 5 / 2) 5 (-1) (by norm_num) (by norm_num)
    (by norm_num) (by norm_num) (by norm_num)
  rw [← h]
  norm_num

theorem sub_maxSize_minSize :
    JsNumber.sub (JsNumber.ofRat 2.5) (JsNumber.ofRat 0.9) =
      JsNumber.finite (7205759403792794 / 4503599627370496) := by
  rw [ofRat_minSize, ofRat_maxSize]
  rw [JsNumber.sub_finite]
  apply JsNumber.ofRat_eq_finite
  · rw [roundBinary64_eq_of_tie 0 7205759403792794] <;> norm_num
  · norm_num
  · norm_num

theorem getFontSize_eq (weight : ℚ) :
    getFontSize weight =
      JsNumber.add (JsNumber.finite (8106479329266893 / 9007199254740992))
        (JsNumber.mul (JsNumber.ofRat weight)
          (JsNumber.finite (7205759403792794 / 4503599627370496))) := by
  simp only [getFontSize]
  rw [sub_maxSize_minSize, ofRat_minSize]

theorem getFontSize_mono {w₁ w₂ : ℚ} (h : w₁ ≤ w₂) : getFontSize w₁ ≤ getFontSize w₂ := by
  rw [getFontSize_eq, getFontSize_eq]
  exact JsNumber.add_finite_mono _
    (JsNumber.mul_finite_mono (by norm_num) (JsNumber.ofRat_mono h))

theorem getFontSize_zero :
    getFontSize 0 = JsNumber.finite (8106479329266893 / 9007199254740992) := by
  have h0 : JsNumber.ofRat 0 = JsNumber.finite 0 :=
    JsNumber.ofRat_eq_finite roundBinary64_zero (by norm_num) (by norm_num)
  rw [getFontSize_eq, h0]
  rw [JsNumber.mul_finite, zero_mul, h0, JsNumber.add_finite, add_zero]
  exact JsNumber.ofRat_of_representable 8106479329266893 (-53) (by norm_num) (by norm_num)
    (by norm_num) (by norm_num) (by norm_num)

theorem getFontSize_one : getFontSize 1 = JsNumber.finite (5 / 2) := by
  have h1 : JsNumber.ofRat 1 = JsNumber.finite 1 :=
    JsNumber.ofRat_of_representable 1 0 (by norm_num) (by norm_num) (by norm_num)
      (by norm_num) (by norm_num)
  have h2 : JsNumber.ofRat (7205759403792794 / 4503599627370496) =
      JsNumber.finite (7205759403792794 / 4503599627370496) :=
    JsNumber.ofRat_of_representable 7205759403792794 (-52) (by norm_num) (by norm_num)
      (by norm_num) (by norm_num) (by norm_num)
  rw [getFontSize_eq, h1]
  rw [JsNumber.mul_finite, one_mul, h2, JsNumber.add_finite]
  apply JsNumber.ofRat_eq_finite
  · rw [roundBinary64_eq_of_near 1 5629499534213120] <;> norm_num
  · norm_num
  · norm_num

theorem getFontSize_small_pos :
    getFontSize (1 / 72057594037927936) = JsNumber.finite (8106479329266893 / 9007199254740992) := by
  have h1 : JsNumber.ofRat (1 / 72057594037927936) = JsNumber.finite (1 / 72057594037927936) :=
    JsNumber.ofRat_of_representable 1 (-56) (by norm_num) (by norm_num) (by norm_num)
      (by norm_num) (by norm_num)
  have h2 : JsNumber.ofRat (1 / 72057594037927936 * (7205759403792794 / 4503599627370496)) =
      JsNumber.finite (1 / 72057594037927936 * (7205759403792794 / 4503599627370496)) :=
    JsNumber.ofRat_of_representable 7205759403792794 (-108) (by norm_num) (by norm_num)
      (by norm_num) (by norm_num) (by norm_num)
  rw [getFontSize_eq, h1]
  rw [JsNumber.mul_finite, h2, JsNumber.add_finite]
  apply JsNumber.ofRat_eq_finite
  · rw [roundBinary64_eq_of_near (-1) 8106479329266893] <;> norm_num
  · norm_num
  · norm_num

theorem getFontSize_small_neg :
    getFontSize (-(1 / 72057594037927936)) = JsNumber.finite (8106479329266893 / 9007199254740992) := by
  have h1 : JsNumber.ofRat (-(1 / 72057594037927936)) = JsNumber.finite (-(1 / 72057594037927936)) :=
    JsNumber.ofRat_of_representable (-1) (-56) (by norm_num) (by norm_num) (by norm_num)
      (by norm_num) (by norm_num)
  have h2 : JsNumber.ofRat (-(1 / 72057594037927936) * (7205759403792794 / 4503599627370496)) =
      JsNumber.finite (-(1 / 72057594037927936) * (7205759403792794 / 4503599627370496)) :=
    JsNumber.ofRat_of_representable (-7205759403792794) (-108) (by norm_num) (by norm_num)
      (by norm_num) (by norm_num) (by norm_num)
  rw [getFontSize_eq, h1]
  rw [JsNumber.mul_finite, h2, JsNumber.add_finite]
  apply JsNumber.ofRat_eq_finite
  · rw [roundBinary64_eq_of_near (-1) 8106479329266893] <;> norm_num
  · norm_num
  · norm_num



/-- C12, as stated, fails: the weights 0 and 10 ^ (-17) get the same size, so
the size is not strictly increasing, and the weight -(10 ^ (-17)), outside of
`[0, 1]`, gets the size 0.9, which is inside the band. -/
theorem getFontSize_strict_fails :
    (0 : ℚ) < 1 / 10 ^ 17 ∧
    getFontSize (1 / 10 ^ 17) = getFontSize 0 ∧
    -(1 / 10 ^ 17 : ℚ) < 0 ∧
    getFontSize (-(1 / 10 ^ 17)) = JsNumber.ofRat 0.9 := by
  have hup : getFontSize (1 / 10 ^ 17) ≤ getFontSize (1 / 72057594037927936) :=
    getFontSize_mono (by norm_num)
  have hlo : getFontSize 0 ≤ getFontSize (1 / 10 ^ 17) := getFontSize_mono (by norm_num)
  have hdn : getFontSize (-(1 / 72057594037927936)) ≤ getFontSize (-(1 / 10 ^ 17)) :=
    getFontSize_mono (by norm_num)
  have hhi : getFontSize (-(1 / 10 ^ 17)) ≤ getFontSize 0 := getFontSize_mono (by norm_num)
  rw [getFontSize_small_pos] at hup
  rw [getFontSize_small_neg] at hdn
  rw [getFontSize_zero] at hlo hhi ⊢
  rw [ofRat_minSize]
  exact ⟨by norm_num, JsNumber.eq_of_le_of_le hlo hup, by norm_num,
    JsNumber.eq_of_le_of_le hdn hhi⟩

/-- C12, amended: the size of a topic of weight `w` is the result of
`0.9 + w * (2.5 - 0.9)` in binary64 arithmetic, each operation being rounded;
it does not decrease when the weight grows, is 0.9 at weight 0 and 2.5 at
weight 1, lies in `[0.9, 2.5]` for a weight in `[0, 1]`, is at most 0.9 for a
weight below 0 and at least 2.5 for a weight above 1. -/
theorem getFontSize_rounded :
    (∀ w : ℚ, getFontSize w =
      JsNumber.add (JsNumber.ofRat 0.9)
        (JsNumber.mul (JsNumber.ofRat w)
          (JsNumber.sub (JsNumber.ofRat 2.5) (JsNumber.ofRat 0.9)))) ∧
    (∀ w₁ w₂ : ℚ, w₁ ≤ w₂ → getFontSize w₁ ≤ getFontSize w₂) ∧
    getFontSize 0 = JsNumber.ofRat 0.9 ∧
    getFontSize 1 = JsNumber.ofRat 2.5 ∧
    (∀ w : ℚ, 0 ≤ w → w ≤ 1 →
      JsNumber.ofRat 0.9 ≤ getFontSize w ∧ getFontSize w ≤ JsNumber.ofRat 2.5) ∧
    (∀ w : ℚ, w < 0 → getFontSize w ≤ JsNumber.ofRat 0.9) ∧
    (∀ w : ℚ, 1 < w → JsNumber.ofRat 2.5 ≤ getFontSize w) ∧
    JsNumber.ofRat 0.9 = JsNumber.finite (8106479329266893 / 9007199254740992) ∧
    JsNumber.ofRat 2.5 = JsNumber.finite (5 / 2) := by
  have h0 : getFontSize 0 = JsNumber.ofRat 0.9 := by rw [getFontSize_zero, ofRat_minSize]
  have h1 : getFontSize 1 = JsNumber.ofRat 2.5 := by rw [getFontSize_one, ofRat_maxSize]
  refine ⟨fun w => rfl, fun w₁ w₂ h => getFontSize_mono h, h0, h1, ?_, ?_, ?_,
    ofRat_minSize, ofRat_maxSize⟩
  · intro w hw0 hw1
    rw [← h0, ← h1]
    exact ⟨getFontSize_mono hw0, getFontSize_mono hw1⟩
  · intro w hw
    rw [← h0]
    exact getFontSize_mono (le_of_lt hw)
  · intro w hw
    rw [← h1]
    exact getFontSize_mono (le_of_lt hw)

theorem getFontSize_rounded_witness :
    getFontSize (1 / 4) ≤ getFontSize (1 / 2) ∧
    (JsNumber.ofRat 0.9 ≤ getFontSize (1 / 2) ∧ getFontSize (1 / 2) ≤ JsNumber.ofRat 2.5) ∧
    getFontSize (-1) ≤ JsNumber.ofRat 0.9 ∧
    JsNumber.ofRat 2.5 ≤ getFontSize 2 :=
  ⟨getFontSize_rounded.2.1 (1 / 4) (1 / 2) (by norm_num),
    getFontSize_rounded.2.2.2.2.1 (1 / 2) (by norm_num) (by norm_num),
    getFontSize_rounded.2.2.2.2.2.1 (-1) (by norm_num),
    getFontSize_rounded.2.2.2.2.2.2.1 2 (by norm_num)⟩

/-! ## Properties of the generate request, its button and the quick selection -/

/-- C13: the first request of `handleGenerateReview` is the POST of
`requestBody`, and no other body is posted; the body carries the selected
type and year unchanged, `regenerate = false`, and as month the selected
0-based month plus one when the type is `monthly` (a number from 1 to 12 for
a month from 0 to 11), `null` for any other type. -/
theorem requestBody_month (api : Api) (st : ReviewPage) :
    (handleGenerateReview api st).2.head? = some (Effect.postGenerate (requestBody st)) ∧
    (∀ body, Effect.postGenerate body ∈ (handleGenerateReview api st).2 →
      body = requestBody st) ∧
    (requestBody st).review_type = st.selectedType ∧
    (requestBody st).year = st.selectedYear ∧
    (requestBody st).regenerate = false ∧
    (st.selectedType = "monthly" → (requestBody st).month = some (st.selectedMonth + 1)) ∧
    (st.selectedType = "monthly" → 0 ≤ st.selectedMonth → st.selectedMonth ≤ 11 →
      ∃ k, (requestBody st).month = some k ∧ 1 ≤ k ∧ k ≤ 12) ∧
    (st.selectedType ≠ "monthly" → (requestBody st).month = none) := by
  have hlog : (handleGenerateReview api st).2 = [Effect.postGenerate (requestBody st)] ∨
      ∃ reviewId, (handleGenerateReview api st).2 =
        [Effect.postGenerate (requestBody st), Effect.getReview reviewId] := by
    cases hg : api.generate (requestBody st) with
    | throws m =>
      left
      simp [handleGenerateReview, hg]
    | returns g =>
      by_cases hs : g.success = true
      · right
        refine ⟨g.review_id, ?_⟩
        cases hr : api.review g.review_id with
        | throws m => simp [handleGenerateReview, loadReviewData, hg, hs, hr]
        | returns r =>
          by_cases hrs : r.success = true <;>
            simp [handleGenerateReview, loadReviewData, hg, hs, hr, hrs]
      · left
        simp [handleGenerateReview, hg, hs]
  refine ⟨?_, ?_, rfl, rfl, rfl, ?_, ?_, ?_⟩
  · rcases hlog with h | ⟨reviewId, h⟩ <;> simp [h]
  · intro body hmem
    rcases hlog with h | ⟨reviewId, h⟩ <;> · rw [h] at hmem; simpa using hmem
  · intro ht
    simp [requestBody, ht]
  · intro ht h0 h11
    exact ⟨st.selectedMonth + 1, by simp [requestBody, ht], by omega, by omega⟩
  · intro ht
    simp [requestBody, ht]

theorem requestBody_month_witness :
    (handleGenerateReview sampleApi samplePage).2.head? =
      some (Effect.postGenerate
        { review_type := "monthly", year := 2024, month := some 1, regenerate := false }) ∧
    ∃ k, (requestBody samplePage).month = some k ∧ 1 ≤ k ∧ k ≤ 12 :=
  ⟨(requestBody_month sampleApi samplePage).1,
    (requestBody_month sampleApi samplePage).2.2.2.2.2.2.1 rfl (by decide) (by decide)⟩

/-- C14, as stated, fails: the selection January 2024 passes the guard in June
2024, and while the request is pending (`loading = true`) the generate button
is disabled; a click issues no request. -/
theorem generate_available_while_loading_fails :
    canGenerate samplePage.selectedType samplePage.selectedYear samplePage.selectedMonth
      2024 5 = true ∧
    (beginGenerate samplePage).loading = true ∧
    generateDisabled (beginGenerate samplePage).selectedType
      (beginGenerate samplePage).selectedYear (beginGenerate samplePage).selectedMonth
      2024 5 (beginGenerate samplePage).loading = true ∧
    clickGenerate sampleApi 2024 5 (beginGenerate samplePage) = (beginGenerate samplePage, []) := by
  decide

/-- C14, amended: while a generate request is pending (`loading = true`) the
generate button is disabled whatever the selection, and a click on it starts
no request and changes nothing; the button is enabled exactly when the
selection passes the guard and nothing is loading. -/
theorem generate_unavailable_while_loading (api : Api) (currentYear currentMonth : Int)
    (st : ReviewPage) :
    (beginGenerate st).loading = true ∧
    generateDisabled (beginGenerate st).selectedType (beginGenerate st).selectedYear
      (beginGenerate st).selectedMonth currentYear currentMonth
      (beginGenerate st).loading = true ∧
    clickGenerate api currentYear currentMonth (beginGenerate st) = (beginGenerate st, []) ∧
    (∀ selectedType selectedYear selectedMonth loading,
      generateDisabled selectedType selectedYear selectedMonth currentYear currentMonth
          loading = false ↔
        canGenerate selectedType selectedYear selectedMonth currentYear currentMonth = true ∧
          loading = false) := by
  refine ⟨rfl, ?_, ?_, ?_⟩
  · simp [generateDisabled, beginGenerate]
  · simp [clickGenerate, generateDisabled, beginGenerate]
  · intro selectedType selectedYear selectedMonth loading
    simp [generateDisabled]

theorem jsDateYearMonth_previous (year month : Int) (hyear : 100 ≤ year)
    (h0 : 0 ≤ month) (h11 : month ≤ 11) :
    jsDateYearMonth year (month - 1) =
      if 1 ≤ month then (year, month - 1) else (year - 1, 11) := by
  have hy : ¬ (0 ≤ year ∧ year ≤ 99) := by omega
  simp only [jsDateYearMonth, hy, if_false]
  split
  · ext <;> simp <;> omega
  · ext <;> simp <;> omega

/-- C15: for a current date of year `Y` (a year of four digits, as a clock
gives: at least 100) and 0-based month `M` from 0 to 11, the quick selection
`last-month` selects `monthly` with (year, month) = (Y, M - 1) when `M ≥ 1`
and (Y - 1, 11) when `M = 0`, the quick selection `last-year` selects `annual`
with year `Y - 1`, and `canGenerate` holds of both selections at that date. -/
theorem handleQuickSelect_canGenerate (nowYear nowMonth : Int) (st : ReviewPage)
    (hyear : 100 ≤ nowYear) (h0 : 0 ≤ nowMonth) (h11 : nowMonth ≤ 11) :
    ((handleQuickSelect "last-month" nowYear nowMonth st).selectedType = "monthly" ∧
      ((handleQuickSelect "last-month" nowYear nowMonth st).selectedYear,
        (handleQuickSelect "last-month" nowYear nowMonth st).selectedMonth) =
          (if 1 ≤ nowMonth then (nowYear, nowMonth - 1) else (nowYear - 1, 11)) ∧
      canGenerate (handleQuickSelect "last-month" nowYear nowMonth st).selectedType
        (handleQuickSelect "last-month" nowYear nowMonth st).selectedYear
        (handleQuickSelect "last-month" nowYear nowMonth st).selectedMonth
        nowYear nowMonth = true) ∧
    ((handleQuickSelect "last-year" nowYear nowMonth st).selectedType = "annual" ∧
      (handleQuickSelect "last-year" nowYear nowMonth st).selectedYear = nowYear - 1 ∧
      canGenerate (handleQuickSelect "last-year" nowYear nowMonth st).selectedType
        (handleQuickSelect "last-year" nowYear nowMonth st).selectedYear
        (handleQuickSelect "last-year" nowYear nowMonth st).selectedMonth
        nowYear nowMonth = true) := by
  have hprev := jsDateYearMonth_previous nowYear nowMonth hyear h0 h11
  constructor
  · have hsel : handleQuickSelect "last-month" nowYear nowMonth st =
        { st with selectedType := "monthly"
                  selectedYear := (jsDateYearMonth nowYear (nowMonth - 1)).1
                  selectedMonth := (jsDateYearMonth nowYear (nowMonth - 1)).2 } := by
      simp [handleQuickSelect]
    rw [hsel, hprev]
    refine ⟨rfl, ?_, ?_⟩
    · simp
    · by_cases hm : 1 ≤ nowMonth
      · simp only [hm, if_true, canGenerate]
        simp
      · simp only [hm, if_false, canGenerate]
        simp
  · have hsel : handleQuickSelect "last-year" nowYear nowMonth st =
        { st with selectedType := "annual", selectedYear := nowYear - 1 } := by
      simp [handleQuickSelect]
    rw [hsel]
    exact ⟨rfl, rfl, by simp [canGenerate]⟩

theorem handleQuickSelect_canGenerate_witness :
    (100 : Int) ≤ 2024 ∧ (0 : Int) ≤ 0 ∧ (0 : Int) ≤ 11 ∧
    ((handleQuickSelect "last-month" 2024 0 samplePage).selectedType = "monthly" ∧
      ((handleQuickSelect "last-month" 2024 0 samplePage).selectedYear,
        (handleQuickSelect "last-month" 2024 0 samplePage).selectedMonth) =
          (if (1 : Int) ≤ 0 then ((2024 : Int), (0 : Int) - 1) else ((2024 : Int) - 1, 11)) ∧
      canGenerate (handleQuickSelect "last-month" 2024 0 samplePage).selectedType
        (handleQuickSelect "last-month" 2024 0 samplePage).selectedYear
        (handleQuickSelect "last-month" 2024 0 samplePage).selectedMonth
        2024 0 = true) ∧
    ((handleQuickSelect "last-year" 2024 0 samplePage).selectedType = "annual" ∧
      (handleQuickSelect "last-year" 2024 0 samplePage).selectedYear = 2024 - 1 ∧
      canGenerate (handleQuickSelect "last-year" 2024 0 samplePage).selectedType
        (handleQuickSelect "last-year" 2024 0 samplePage).selectedYear
        (handleQuickSelect "last-year" 2024 0 samplePage).selectedMonth
        2024 0 = true) :=
  ⟨by decide, by decide, by decide,
    handleQuickSelect_canGenerate 2024 0 samplePage (by decide) (by decide) (by decide)⟩

end EchoesOfMemory
